import Mathlib

/-!
Verification of the `uno_fast_mul` table-driven approximate arithmetic engine.

The definitions below are a shallow embedding of the C sources:
machine integers are modelled as `Nat` (unsigned) and `Int` (signed) with
explicit wrap-around (`wrap8`, `wrap16`, `wrap32`, `wrap64`) exactly where the
C code stores into a narrower type, C `>>` on signed values is floor division
(arithmetic shift), and C `/` on signed values is truncation toward zero
(`Int.div`).  The lookup tables are produced by an external generator that is
not part of the repository; where table contents are needed they are modelled
from the spec (see the doc comment of each table).
-/

set_option maxRecDepth 100000

namespace UnoFastMul

/-- Two-sided wrap of an integer into the `int8_t` range, i.e. the effect of
storing into an 8-bit signed field. -/
def wrap8 (x : Int) : Int := (x + 128) % 256 - 128

/-- Two-sided wrap of an integer into the `int16_t` range. -/
def wrap16 (x : Int) : Int := (x + 32768) % 65536 - 32768

/-- Two-sided wrap of an integer into the `int32_t` range. -/
def wrap32 (x : Int) : Int := (x + 2147483648) % 4294967296 - 2147483648

/-- Two-sided wrap of an integer into the `int64_t` range. -/
def wrap64 (x : Int) : Int := (x + 9223372036854775808) % 18446744073709551616 - 9223372036854775808

/-- Arithmetic shift right of a signed value (C `>>` on a signed operand):
floor division by a power of two. -/
def asr (y : Int) (k : Nat) : Int := Int.fdiv y (2 ^ k)

/-- Read an element of an unsigned lookup table (out-of-range reads, which the
C code never performs, default to 0). -/
def nget (t : List Nat) (i : Nat) : Nat := t.getD i 0

/-- Read an element of a signed lookup table. -/
def iget (t : List Int) (i : Nat) : Int := t.getD i 0

/-- Contents of `msb_table` (byte to index of its highest set bit, 0 for
input 0), as listed in `8q8.ino`; the generated header used by `FMT_Core.h`
declares the same 256-entry table. -/
def msb_table : List Nat := [
  0, 0, 1, 1, 2, 2, 2, 2, 3, 3, 3, 3, 3, 3, 3, 3, 4, 4, 4, 4, 4, 4, 4, 4, 4, 4, 4, 4, 4, 4, 4, 4,
  5, 5, 5, 5, 5, 5, 5, 5, 5, 5, 5, 5, 5, 5, 5, 5, 5, 5, 5, 5, 5, 5, 5, 5, 5, 5, 5, 5, 5, 5, 5, 5,
  6, 6, 6, 6, 6, 6, 6, 6, 6, 6, 6, 6, 6, 6, 6, 6, 6, 6, 6, 6, 6, 6, 6, 6, 6, 6, 6, 6, 6, 6, 6, 6,
  6, 6, 6, 6, 6, 6, 6, 6, 6, 6, 6, 6, 6, 6, 6, 6, 6, 6, 6, 6, 6, 6, 6, 6, 6, 6, 6, 6, 6, 6, 6, 6,
  7, 7, 7, 7, 7, 7, 7, 7, 7, 7, 7, 7, 7, 7, 7, 7, 7, 7, 7, 7, 7, 7, 7, 7, 7, 7, 7, 7, 7, 7, 7, 7,
  7, 7, 7, 7, 7, 7, 7, 7, 7, 7, 7, 7, 7, 7, 7, 7, 7, 7, 7, 7, 7, 7, 7, 7, 7, 7, 7, 7, 7, 7, 7, 7,
  7, 7, 7, 7, 7, 7, 7, 7, 7, 7, 7, 7, 7, 7, 7, 7, 7, 7, 7, 7, 7, 7, 7, 7, 7, 7, 7, 7, 7, 7, 7, 7,
  7, 7, 7, 7, 7, 7, 7, 7, 7, 7, 7, 7, 7, 7, 7, 7, 7, 7, 7, 7, 7, 7, 7, 7, 7, 7, 7, 7, 7, 7, 7, 7]

/-- The entries of `msb_table` packed into one natural number (entry `i` in
bits `[8i,8i+8)`); `msb_bridge` proves the packing agrees with the list. -/
def msb_packed : Nat :=
  887133499996772749431388771845841818521994975247091718529068305853617984204216612754432979924158408807141277358640337790034654564915437049669086536098580320958494672827870480950005428442068881363029033210543031286029590315679758012285751609291502718800280474369624060000835416630539061412756340368107892935894982605545851628839301541124992486237770331566235387252043958957488041855504789160467065383242479533570529851566123953511881052146263155718953081811739358748252172429836387777355970565809517814466395664784778439423225044997507833381850957502249489212999473577676371921324003856900945123923710851587141337088

/-- Entry `i` of `msb_table`, read from the packed form (the form the
definitions below use, for fast kernel evaluation). -/
def tblM (i : Nat) : Nat := (msb_packed >>> (8*i)) % 256

/-- Modelled from the spec: the generated table `log2_table_q8` is absent
from the repository (it is emitted by the external table generator); per the
spec its entry for a mantissa `m` in `[128,255]` is the Q8.8 logarithm
`round(256*log2(m))` (entries below 128 are never read by `log2_q8`). -/
def log2_table_q8 : List Nat := [
  0, 0, 0, 0, 0, 0, 0, 0, 0, 0, 0, 0, 0, 0, 0, 0,
  0, 0, 0, 0, 0, 0, 0, 0, 0, 0, 0, 0, 0, 0, 0, 0,
  0, 0, 0, 0, 0, 0, 0, 0, 0, 0, 0, 0, 0, 0, 0, 0,
  0, 0, 0, 0, 0, 0, 0, 0, 0, 0, 0, 0, 0, 0, 0, 0,
  0, 0, 0, 0, 0, 0, 0, 0, 0, 0, 0, 0, 0, 0, 0, 0,
  0, 0, 0, 0, 0, 0, 0, 0, 0, 0, 0, 0, 0, 0, 0, 0,
  0, 0, 0, 0, 0, 0, 0, 0, 0, 0, 0, 0, 0, 0, 0, 0,
  0, 0, 0, 0, 0, 0, 0, 0, 0, 0, 0, 0, 0, 0, 0, 0,
  1792, 1795, 1798, 1801, 1803, 1806, 1809, 1812, 1814, 1817, 1820, 1822, 1825, 1828, 1830, 1833,
  1836, 1838, 1841, 1843, 1846, 1848, 1851, 1853, 1855, 1858, 1860, 1863, 1865, 1867, 1870, 1872,
  1874, 1877, 1879, 1881, 1884, 1886, 1888, 1890, 1892, 1895, 1897, 1899, 1901, 1903, 1905, 1908,
  1910, 1912, 1914, 1916, 1918, 1920, 1922, 1924, 1926, 1928, 1930, 1932, 1934, 1936, 1938, 1940,
  1942, 1944, 1946, 1947, 1949, 1951, 1953, 1955, 1957, 1959, 1961, 1962, 1964, 1966, 1968, 1970,
  1971, 1973, 1975, 1977, 1978, 1980, 1982, 1984, 1985, 1987, 1989, 1990, 1992, 1994, 1995, 1997,
  1999, 2000, 2002, 2004, 2005, 2007, 2008, 2010, 2012, 2013, 2015, 2016, 2018, 2020, 2021, 2023,
  2024, 2026, 2027, 2029, 2030, 2032, 2033, 2035, 2036, 2038, 2039, 2041, 2042, 2044, 2045, 2047]
/-- Modelled from the spec: the generated table `exp2_table_q8` holds the
Q8.8 fractional power of two `round(256*2^(f/256))` for `f` in `[0,255]`. -/
def exp2_table_q8 : List Nat := [
  256, 257, 257, 258, 259, 259, 260, 261, 262, 262, 263, 264, 264, 265, 266, 267,
  267, 268, 269, 270, 270, 271, 272, 272, 273, 274, 275, 275, 276, 277, 278, 278,
  279, 280, 281, 281, 282, 283, 284, 285, 285, 286, 287, 288, 288, 289, 290, 291,
  292, 292, 293, 294, 295, 296, 296, 297, 298, 299, 300, 300, 301, 302, 303, 304,
  304, 305, 306, 307, 308, 309, 309, 310, 311, 312, 313, 314, 314, 315, 316, 317,
  318, 319, 320, 321, 321, 322, 323, 324, 325, 326, 327, 328, 328, 329, 330, 331,
  332, 333, 334, 335, 336, 337, 337, 338, 339, 340, 341, 342, 343, 344, 345, 346,
  347, 348, 349, 350, 350, 351, 352, 353, 354, 355, 356, 357, 358, 359, 360, 361,
  362, 363, 364, 365, 366, 367, 368, 369, 370, 371, 372, 373, 374, 375, 376, 377,
  378, 379, 380, 381, 382, 383, 384, 385, 386, 387, 388, 389, 391, 392, 393, 394,
  395, 396, 397, 398, 399, 400, 401, 402, 403, 405, 406, 407, 408, 409, 410, 411,
  412, 413, 415, 416, 417, 418, 419, 420, 421, 422, 424, 425, 426, 427, 428, 429,
  431, 432, 433, 434, 435, 436, 438, 439, 440, 441, 442, 444, 445, 446, 447, 448,
  450, 451, 452, 453, 454, 456, 457, 458, 459, 461, 462, 463, 464, 466, 467, 468,
  470, 471, 472, 473, 475, 476, 477, 478, 480, 481, 482, 484, 485, 486, 488, 489,
  490, 492, 493, 494, 496, 497, 498, 500, 501, 502, 504, 505, 506, 508, 509, 511]


/-- The entries of `log2_table_q8` packed into one natural number (entry `i`
occupies bits `[16i,16i+16)`), so that the kernel can evaluate the finite
checks below with single shift/mod operations; `packed_bridge` proves the
packing agrees with the list. -/
def log2_packed : Nat :=
  32621713716033580935903035873728978268545348483935688491807942233312210216417555693574374782879747842399893151687389814562480604793119545874869412488516155910617570404964166503891372375211811571483992023595678847226831742649347777245265285710207802871682419853980327393069053897457824397280538992556553926810981433857926809940009427316144110746501991349412183597347000204713808409694323596979017549301143716548185846183368446831802800925731109751050750254856341681005207270517067142390911808821321347277508732228747723644764694122725472357385561157545300589130400457684200782314112705351550172660564645330852970376226167777082527604088022523483347578901594982753482851398713066316260491884879594832917264873562403982217781117555576095439276276578002275245567607733293576360192189432889175200171491478737789650246807289859343877656547590376744067618720170595716928691687787342696999796959881614468515542424961066937187724994579301466918828543476441379633048032441606432165711918590338380401781473882387177750941639726472168454378436061363328852820388378594590784362230506450251528722299464615961766811422616418358297907104145698245498386251872043236642459503755896184507240439738780271298826040217048545586007834471429184240845062144

/-- The entries of `exp2_table_q8` packed into one natural number. -/
def exp2_packed : Nat :=
  8143475799643831179612013323994485267679940017408957992729923524455149659422240578461888129465033763677709446363679193277469051182258298826963552243559784097361796338070589679734866836223169035899253046548042154095370982334585594219289905316179105424316798933045453285087581081322128637377246160091500358399920361436171114338648862131946319920253800449002459407305760445090190283707484895326252456541130022445923635628312660170713574666274811565399362746785881640859141748327734058280854185121362622716554423924962882226005455888792457181284328309824032812035944141011913321786486795312947945554485504929978756623249654828031401611912393313545519217510486360146874929086719979259261355679941176383842626392862268881544944719164461257282071042645908011039459424080036562763132579247247082254490913917897877620551409294083905506891095856324823425074500908886372384530508052798565012431002515753066965478511436949173584589362608910283781097256580491129400448052566670585708787182005713346786147237044400264565983232140683213229288870077332264192605262966075224638307726475722032461546902818618457748562372020182016139265908463610708896372053161100980117914793973421534328975157673886014809134058139213039562883575571565734819755262208

/-- The 256 entries of `log2_table_q8` packed into one natural number
(entry `i` in bits `[16i, 16i+16)`), for fast kernel evaluation of the finite
checks below. -/
def tblL (m : Nat) : Nat := (log2_packed >>> (16*m)) % 65536

/-- The 256 entries of `exp2_table_q8` packed into one natural number. -/
def tblE (f : Nat) : Nat := (exp2_packed >>> (16*f)) % 65536

/-- Q8.8 logarithm of an unsigned 32-bit value, from `FMT_Core.h`
(`log2_q8`): byte-wise scan for the highest set bit via `msb_table`,
normalisation of the top 8 bits into a mantissa in `[128,255]`, and a table
lookup; `INT32_MIN` is the sentinel for `log2 0`.  The C tests
`v & 0xFF000000` etc. are rendered as `v >>> 24 ≠ 0`, which is the same test
for `v < 2^32`; the `(uint16_t)`/`(uint8_t)` casts are the `% 65536`/`% 256`. -/
def log2_q8 (v : Nat) : Int :=
  if v = 0 then -2147483648 else
  if v >>> 24 ≠ 0 then
    let e := 24 + tblM (v >>> 24)
    let m := (((v >>> 16) % 65536) >>> (e - 23)) % 256
    ((e : Int) - 7) * 256 + (tblL m : Int)
  else if v >>> 16 ≠ 0 then
    let e := 16 + tblM ((v >>> 16) % 256)
    let m := (((v >>> 8) % 65536) >>> (e - 15)) % 256
    ((e : Int) - 7) * 256 + (tblL m : Int)
  else if v >>> 8 ≠ 0 then
    let e := 8 + tblM ((v >>> 8) % 256)
    let m := ((v % 65536) >>> (e - 7)) % 256
    ((e : Int) - 7) * 256 + (tblL m : Int)
  else
    let e := tblM (v % 256)
    let m := ((v % 256) <<< (7 - e)) % 256
    ((e : Int) - 7) * 256 + (tblL m : Int)

/-- Q8.8 exponential of `FMT_Core.h` (`exp2_q8`): split into integer part
`ip` (arithmetic shift) and 8-bit fraction, look up the fractional power of
two, and shift by `ip` with saturation to all-ones above and flush to zero
below.  The staged C shifts `(v << 16) << (s - 16)` are modelled with the
`uint32_t` wrap `% 2^32` at each stage; `uint8_t s = 8 - ip` is `% 256`. -/
def exp2_q8 (y : Int) : Nat :=
  if y = -2147483648 then 0 else
  let ip : Int := asr y 8
  let fr : Nat := (Int.emod y 256).toNat
  let v : Nat := tblE fr
  if ip < 0 then
    let s : Nat := ((8 - ip).emod 256).toNat
    if 24 ≤ s then 0
    else if 16 ≤ s then (v >>> 16) >>> (s - 16)
    else if 8 ≤ s then (v >>> 8) >>> (s - 8)
    else v >>> s
  else if 31 < ip then 4294967295
  else if 8 ≤ ip then
    let s : Nat := ip.toNat - 8
    if 16 ≤ s then (((v <<< 16) % 4294967296) <<< (s - 16)) % 4294967296
    else if 8 ≤ s then (((v <<< 8) % 4294967296) <<< (s - 8)) % 4294967296
    else (v <<< s) % 4294967296
  else v >>> (8 - ip.toNat)

/-- Approximate 16x16 multiply of `FMT_Core.h` (`mul_u16_ap`):
`exp2_q8(log2_q8 a + log2_q8 b)` with 0 if either operand is 0. -/
def mul_u16_ap (a b : Nat) : Nat :=
  if a = 0 ∨ b = 0 then 0 else exp2_q8 (log2_q8 a + log2_q8 b)

/-- Approximate divide of `FMT_Core.h` (`div_u32_u16_ap`): all-ones when the
divisor is 0 (checked first), 0 when the dividend is 0, else
`exp2_q8(log2_q8 n - log2_q8 d)`. -/
def div_u32_u16_ap (n d : Nat) : Nat :=
  if d = 0 then 4294967295 else
  if n = 0 then 0 else
  exp2_q8 (log2_q8 n - log2_q8 d)

/-! ### tests/fast_mul.h : the standalone fast multiply used by the host test -/

/-- Index of the highest set bit of a 16-bit value (`fast_msb16` of
`tests/fast_mul.h`), via two byte lookups in `msb_table`. -/
def fast_msb16 (v : Nat) : Nat :=
  if v >>> 8 ≠ 0 then 8 + tblM (v >>> 8) else tblM (v % 256)

/-- Normalisation of `tests/fast_mul.h` (`normalize_to_mant8`): returns the
8-bit mantissa together with the exponent (as the `int8_t` out-parameter);
`v = 0` uses the sentinel pair `(0, -127)`. -/
def normalize_to_mant8 (v : Nat) : Nat × Int :=
  if v = 0 then (0, -127) else
  let e := fast_msb16 v
  let tmp := ((v <<< (15 - e)) % 4294967296) >>> 8
  (tmp % 256, (e : Int))

/-- Q8.8 logarithm of `tests/fast_mul.h` (`fast_log2_q8_8`). -/
def fast_log2_q8_8 (v : Nat) : Int :=
  if v = 0 then -2147483648 else
  let p := normalize_to_mant8 v
  (p.2 - 7) * 256 + (tblL p.1 : Int)

/-- Q8.8 exponential of `tests/fast_mul.h` (`fast_exp2_from_q8_8`). -/
def fast_exp2_from_q8_8 (y : Int) : Nat :=
  if y ≤ -32768 then 0 else
  let integer : Int := asr y 8
  let frac : Nat := (Int.emod y 256).toNat
  let ef := tblE frac
  if 32 ≤ integer then 4294967295
  else if 8 ≤ integer then (ef <<< (integer.toNat - 8)) % 4294967296
  else if 0 ≤ integer then ef >>> (8 - integer.toNat)
  else if 24 ≤ (-integer).toNat then 0
  else ef >>> (8 + (-integer).toNat)

/-- The fast multiply of `tests/fast_mul.h` (`fast_log_mul_u16`):
`exp2(log2 a + log2 b)` in Q8.8, 0 if either operand is 0. -/
def fast_log_mul_u16 (a b : Nat) : Nat :=
  if a = 0 ∨ b = 0 then 0
  else fast_exp2_from_q8_8 (fast_log2_q8_8 a + fast_log2_q8_8 b)

/-! ### FMT_Fixed.h : exact and approximate Q16.16 operations -/

/-- Exact signed Q16.16 multiply (`q16_mul_s`): 64-bit product, arithmetic
shift right by 16, store into `int32_t`. -/
def q16_mul_s (a b : Int) : Int := wrap32 (asr (a * b) 16)

/-- Exact signed Q16.16 divide (`q16_div_s`): saturates on a zero divisor,
otherwise 64-bit `(a << 16) / b` with C truncating division, stored into
`int32_t`. -/
def q16_div_s (a b : Int) : Int :=
  if b = 0 then (if 0 ≤ a then 2147483647 else -2147483648)
  else wrap32 (Int.tdiv (a * 65536) b)

/-- Approximate inverse square root (`q16_inv_sqrt`): saturates to all-ones
at 0, else `exp2_q8((24 << 8) - (log2_q8 x >> 1))`. -/
def q16_inv_sqrt (x : Nat) : Nat :=
  if x = 0 then 4294967295 else exp2_q8 (6144 - asr (log2_q8 x) 1)

/-- Approximate square root (`q16_sqrt`): 0 at 0, else
`exp2_q8((log2_q8 x >> 1) + (8 << 8))`. -/
def q16_sqrt (x : Nat) : Nat :=
  if x = 0 then 0 else exp2_q8 (asr (log2_q8 x) 1 + 2048)

/-! ### FMT_Trig.h : table-driven sine and cosine -/

/-- Modelled from the spec: the generated 1024-entry Q15 sine table
(`sin_table_q15[1024]` in the generated header), entry `i` holding
`round(32767*sin(2*pi*i/1024))`.  The entries are packed two's-complement
into one natural number (entry `i` in bits `[16i,16i+16)`) and decoded by
`wrap16`, which keeps kernel evaluation fast. -/
def sin_packed : Nat :=
  1186100611889567569450787511205234416841774774534789723252081006485997791574799813917840719989943188357057912405617456473396184452839818194223637293311715447820825477303010602808061487011685692700950720650088691105135303096323856588398632981184103119711254387842972318055669663219492949299495436379058706192726283574731063095677820043540913732982849570472945228896403427681266186177324337261641812215011026844165530356017145922114381487328944326820771825207879599683042845023391233894710765734086158661266144615398969262404777023110540578768533961542255368618155944072663482297774314096030165362075251839137850740375821253629228266392042776849375897086709620002621343301779878687223615514625210328124249064890703005840843481546533235275554716341415152991402427394750455577719140611805169952860982488722670132335928649715044113136936914518949342165667818411135663150788673746446722548420250941428854691329649535981785863552467184007441595415686749465249125802027950141596264034341782889102231577320033497774471333407265743719220435749488486906527860956418208738912477431103076536081438372596051869316963364319768336224904404414567866768519103617170042318365106386801074340737357820835661002392645137051327710815975626709272607567468158108417016872639835818611086835107523330041617175501843833843204576011724704561618782635315673182295903959917069016228143741491223308605207041827927064797013468182471592896986104372438318374100753532029534326958436788690309819657394727693486687238608054012591635884398241116381255081705484533933738228538985882461983516273509853077601474604012396897148264338908594382801237438995692059222553090529476368686544505127566978330050682144421156171493455666876995907128134077770118756666887724533086341312053991538974801269219851964160805534401331039771797773384789427502205383924029397775986417108753636229392215022500594650444762554112085426300767079749640868162563020901495820416401131385339340297450984228077452140876555130093635032250346282815697320179935168755990109971354390225639177161028232062776411277813115061843250600796762953506724598990266432515977451073501260564560972485442942199646972739163737711463353599461616095777777134883891799175525860387654514302568188480449797704828148092249602887382440453834917836947659208419864601586213565971235248084446222575556056180004096962477226987407212433020591859213662368099095141576923796302882625323309096915801547618021222809647509445227167736963798348269238085660849498584245236850993982566829995428812489293924554394380175180202669242279819076363730899048441403838316802772513976500734702929540138921040703675761131141831143103945111427960521334416879853444447333109533562603132357980788737164152995950503203162264392927390340454735877028068080224511885313932733858859179734478991423124756928918288173394548179320197961320670209178868089700255880291762705449594821309297892641418339074542856842471067218321861731958086236406485641821777055608845929381860107504650070007726914915894665712808701963517328670594766290221471495990621725364882975416897562940265098127147445952839152147471503038632252681897352454596639682948824506265010379674373996569372470571714081647512013844774828135869858319443890380265624732054225042866242330285772239643647058279842805114006291411931855392076457764517389646635097567654955244563100011760252034254100246335202002836405616493453507877670703164261419569071263770030331561628801929009006899384763047767091008929668746162061604322490997262121769047474169800454247585137373326769674122473581102373559163122229529757001290171564637982967011719329341706494536779529075057473035899231885905658490818850400401085367442360314668955326184174496436298323176512978578838187099609638922316970951594886743297703571130640073060866638661375637331736838780134099448863518276003200268728279643571023704924459885922264419398368866605819461588552782131566100256760396273522023551192343703645748443414498632680378168744206167459196303382526125680197675256871257692236879790509460945800467192329143261304115538556761558507465741669795380133833566312773784843336406932374681228000247621341524200665605789577283287971304558098534991689926923942071182032384431682566187624891832468900997729103431940255377322934710684088198743614629064849504271689397851500638223297909005413945188429606413616282402115768278525854627781470740562656820295863930933678254337772972679681299621472208215024446466769277376925423119516299330402039349475238673555665475034309615206548975756798683221433613234403721926599700521211716426564855988953161538600567133384430208792820056602848362900946943473377654645288574347583290523453064822223860806154217423198369166463923349809530042153012813742636686048238480771227361543427041990931560463285515236409493260225045565875840045477992820073748306160919046302032864682100173265535047405563850065821255759643542223197876534961170894698071432832482261207312247125261064182069027873933021690179659667857839069271228416

/-- Entry `i` of the modelled sine table, as a signed Q15 value. -/
def sin_table_q15 (i : Nat) : Int := wrap16 (((sin_packed >>> (16*i)) % 65536 : Nat))

/-- Modelled from the spec: the generated 1024-entry Q15 cosine table,
packed like `sin_packed`. -/
def cos_packed : Nat :=
  594838516193180530181193429064389805661649276180557203500473446909831248310925276135708052807309811849393291016401742226176598803649982180551506534900314472881838561285131885076267540692758538469512705490950253261293879270712452357838340298190270311764528954815809944498637936371418281560648657538453904969408619551186290626547000011954627690887614578513436026009513282179080485964985311036658895464379304221595769146305128220963202760612208638218846781777990987267961157308987044875121734712640595981220906291129255752049026419344351010237047440217576926129589223804893627087562056616550986513691742423389018060740063940345354107599371348340204692704147942553975781201799659118485724436442024412053464686834635649849182209461180883512299027405259873797603179422047962040785472402274532488229754300711304235495601094709466169576009129532442889276397647522496548249859746544558312152734446854082204003323060463849498877045643456666853543018909779695602721509450281049050690270079102179805646703588621508826371662599370542038662439642619531369385806286420878635152495898972197812145994348892520746346028856638415214540881903223128636392899250229019252694661079343900123644268748257266851203265127130641440984938289220075427555705669493824663249067060050826225731757162095702832506495911216713546451154310709223549964359817573146274033402291167721733854625020662101335057400525855943846344014974099068697117954989648276355182739919166015238804497183114056510515649479012625641898630106359459784645098575702968660804710596879324755947280603742830905413134673861923031990331258331169382075342447557503911480270694709873892257708353946602465925706239169138636329058964832256891525124904289021862918996362390180830417067609819267386876007853183364669868575145744332603846311432950130704915331707267781946205886028194381151707705423295256180394670076777661429250481634051664798792974441660629653013657914866484402531109250775922344306705793942284638014971902243256798336902295451317822950320026448409040839525146668005952847502732650751437922719396427247770981254260257692047639555683060463711967164495314903135561366224977284282324478028782820020234164765485317733833846503164370015037572449183240634524822143460939210119201774374549408266596325630670431148820218457070474818296630190009204691726201346360970268131895920183700402591583879778796279985251202038468000922142762005210364899559042049447817210387098969238979887191823051709939688982093870124970220280294041323462611508109399445668486528541084221646031061458715213113418021231214255234376675112593139454551928553328085417682272816757332146383590327721148757423325136948761478489400515229418650944501805806999726267320474813687971104246821883381028604505477300914154484287449687211959192014957824351561335227913779207204197011256329224133554046861180684393717924881688663864940077843645041097456635582383028226839396881822900677304004948279276521084262307008198336730625107185515261499349671060090003812301467362199821663122695290733983364049446806183729566280462679744935953280782455071926920208224352875674064650439769277856038606499138210461329590702416724215793572513051752897448400756241642840314830383731946745206633709255995349549496701529984221067793639332691412621014485847888930934945106862853842168889553106615470136132332768680185317061932018907018106296047978161190259694810260890019415103334567635656464600503120402569605243285396391574217773005560424988611380674245063476027145764313818983202599018025625214818472117650894683290166665680265157738197394780938843017203058308202902220111178667708867601586255994962550329004005774486167780150985189038560331286500546486820789286378577262178699790670622869235178536173355670202618144960065601753878877846908697096952499274885725153731938664774394365729368658904670558919903063039983557119507543844945122955564736181991029423415688571486187041793312685255627289130278375509946195815875376379883726091237892702116766264473853238387745322861716505598391558545156904431669933808446486115623279030530291028285810093889345263589311195159258675727690191428171083465775826380188506180132642012319220880304077648422682585789066267931315820003978898974874914992543164964642369345582589106128205043624135300266311393767307877059076652436050327307704959599086040704892468332236901495111638062342232240246150559625954409641625529151411830253677806271125311443679004181944999644735959106311079514403491946778063937271123243001899794265789950636722519677632817487806408805701662919493963454695322783977719249525549839349522381185005157209500389750215415443439232600818404653367271818805811424314041404037508167495620428501494426502118639410756274905994002494909865528223967592170129444358723585689955060288184218093113746149047179283363255303336227337532261336345814454611578774430161054470711862118431254422344083231669235454004322215183802558973719636943478069376601507917509785242007786533769350953664992872327113405793809419108351

/-- Entry `i` of the modelled cosine table, as a signed Q15 value. -/
def cos_table_q15 (i : Nat) : Int := wrap16 (((cos_packed >>> (16*i)) % 65536 : Nat))

/-- Q15 sine of a 16-bit angle (`sin_u16` of `FMT_Trig.h`, 1024-entry path):
index `(a >> 6) & 1023`. -/
def sin_u16 (a : Nat) : Int := sin_table_q15 ((a >>> 6) % 1024)

/-- Q15 cosine of a 16-bit angle (`cos_u16` of `FMT_Trig.h`). -/
def cos_u16 (a : Nat) : Int := cos_table_q15 ((a >>> 6) % 1024)

/-- Q16.16 sine (`sin_q16`): the Q15 value shifted left once. -/
def sin_q16 (a : Nat) : Int := sin_u16 a * 2

/-- Q16.16 cosine (`cos_q16`). -/
def cos_q16 (a : Nat) : Int := cos_u16 a * 2

/-! ### FMT_Ring.h : the Log32 ring (16-bit log magnitude variant) -/

/-- Modelled from the spec: the generated log-sum-exp table `lse_table_q8`,
entry `i` holding `round(256*log2(1+2^(-8*i/256)))` for the clamped Q8.8
magnitude difference `8*i`. -/
def lse_table_q8 : List Nat := [
  256, 252, 248, 244, 240, 237, 233, 229, 225, 222, 218, 215, 211, 208, 204, 201,
  198, 194, 191, 188, 185, 181, 178, 175, 172, 169, 166, 164, 161, 158, 155, 152,
  150, 147, 144, 142, 139, 137, 134, 132, 130, 127, 125, 123, 120, 118, 116, 114,
  112, 110, 108, 106, 104, 102, 100, 98, 96, 94, 93, 91, 89, 87, 86, 84,
  82, 81, 79, 78, 76, 75, 73, 72, 70, 69, 68, 66, 65, 64, 63, 61,
  60, 59, 58, 57, 55, 54, 53, 52, 51, 50, 49, 48, 47, 46, 45, 44,
  44, 43, 42, 41, 40, 39, 38, 38, 37, 36, 35, 35, 34, 33, 33, 32,
  31, 31, 30, 29, 29, 28, 28, 27, 26, 26, 25, 25, 24, 24, 23, 23,
  22, 22, 21, 21, 21, 20, 20, 19, 19, 19, 18, 18, 17, 17, 17, 16,
  16, 16, 15, 15, 15, 14, 14, 14, 13, 13, 13, 13, 12, 12, 12, 12,
  11, 11, 11, 11, 10, 10, 10, 10, 10, 9, 9, 9, 9, 9, 8, 8,
  8, 8, 8, 8, 7, 7, 7, 7, 7, 7, 7, 6, 6, 6, 6, 6,
  6, 6, 5, 5, 5, 5, 5, 5, 5, 5, 5, 5, 4, 4, 4, 4,
  4, 4, 4, 4, 4, 4, 4, 3, 3, 3, 3, 3, 3, 3, 3, 3,
  3, 3, 3, 3, 3, 3, 3, 2, 2, 2, 2, 2, 2, 2, 2, 2,
  2, 2, 2, 2, 2, 2, 2, 2, 2, 2, 2, 2, 2, 2, 2, 1]

/-- The entries of `lse_table_q8` packed into one natural number (entry `i`
in bits `[16i,16i+16)`); `lse_bridge` proves the packing agrees with the
list. -/
def lse_packed : Nat :=
  15936595979595532315751361307560015566256657984609731984892131687310232508492106010243541117407056821943912152194188015289946371854624138205968140576045965880974244598696510586653520990730264748856298499892051405202580199335104203029377200823510084675763906466901935063715687699023670859032740133724733726053014654611479652613762043443876910338110327927377642133161293827704844377409439143796416353334049374711118404597676947472151008253266552536325437905023204635424392978051741261278785500975320353803063782353176544289914031672609212184308832571473087467960722384392379342923723717111242059213259259518485715292649440384441861983586474574752540539001253678940110063314359603935494279468793308279194097400001054978118752233582954492297320982382306532318598500344373427869595744075107291410716229182679198925775071873761447818446839523980896653521850157668718984123529918208307504731178284782557159794928665123782766481096790639319183791498753976091634582224185718785940866743874245250071713270639546914372533360742347398688341464072138067598204836142140064622222139963863455773113825631388072323376513597545453683364322300080129769942068662334368338116615179848768739402614331501054823640889012144900890191042533014444074336512

/-- Entry `i` of the modelled log-sum-exp table, read from the packed form. -/
def tblLse (i : Nat) : Nat := (lse_packed >>> (16*i)) % 65536

/-- A `Log32` ring element of `FMT_Ring.h`: a Q8.8 log magnitude stored in
`int16_t` and a sign in `int8_t`. -/
structure Log32 where
  lval : Int
  sign : Int
deriving DecidableEq

/-- Conversion into the log domain (`to_log32`): 0 maps to the sentinel pair,
otherwise `log2_q8` of the absolute value (stored into `int16_t`) with the
sign of `v`. -/
def to_log32 (v : Int) : Log32 :=
  if v = 0 then ⟨-32768, 0⟩
  else if 0 < v then ⟨wrap16 (log2_q8 v.toNat), 1⟩
  else ⟨wrap16 (log2_q8 (-v).toNat), -1⟩

/-- Conversion out of the log domain (`from_log32`): 0 when the sign is 0,
otherwise `exp2_q8` of the magnitude (stored into `int32_t`), negated for a
negative sign (`int32_t` negation). -/
def from_log32 (l : Log32) : Int :=
  if l.sign = 0 then 0
  else
    let res := wrap32 ((exp2_q8 l.lval : Int))
    if 0 < l.sign then res else wrap32 (-res)

/-- Log-domain multiply (`log32_mul`): signs multiply (`int8_t`), magnitudes
add (`int16_t` sum), with the sentinel when the result sign is 0. -/
def log32_mul (a b : Log32) : Log32 :=
  let s := wrap8 (a.sign * b.sign)
  if s = 0 then ⟨-32768, s⟩ else ⟨wrap16 (a.lval + b.lval), s⟩

/-- Log-domain divide (`log32_div`): division by a zero sign saturates the
magnitude to `32767` with sign `(a.sign >= 0) ? 1 : -1`; otherwise signs
multiply and magnitudes subtract. -/
def log32_div (a b : Log32) : Log32 :=
  if b.sign = 0 then ⟨32767, if 0 ≤ a.sign then 1 else -1⟩
  else
    let s := wrap8 (a.sign * b.sign)
    if a.sign = 0 then ⟨-32768, s⟩ else ⟨wrap16 (a.lval - b.lval), s⟩

/-- Log-domain power (`log32_pow`): scales the magnitude by `k` and forces a
positive sign.  The C exponent is a `float`; it is modelled here at integer
`k`, where the C `a.lval * k` and the `(int16_t)` cast are exact, so the
model agrees with the source on every integral exponent. -/
def log32_pow (a : Log32) (k : Int) : Log32 :=
  if a.sign = 0 then ⟨-32768, 0⟩ else ⟨wrap16 (a.lval * k), 1⟩

/-- Log-domain add (`log32_add`): a zero operand returns the other; equal
signs use the log-sum-exp table on the clamped magnitude difference
(`int16_t` difference, index `diff >> 3` capped at 255); opposite signs fall
back to linear conversion. -/
def log32_add (a b : Log32) : Log32 :=
  if a.sign = 0 then b
  else if b.sign = 0 then a
  else if a.sign = b.sign then
    let diff := wrap16 (a.lval - b.lval)
    if 0 ≤ diff then
      let ti := min (diff.toNat >>> 3) 255
      ⟨wrap16 (a.lval + wrap16 (tblLse ti)), a.sign⟩
    else
      let ti := min ((-diff).toNat >>> 3) 255
      ⟨wrap16 (b.lval + wrap16 (tblLse ti)), b.sign⟩
  else to_log32 (wrap32 (from_log32 a + from_log32 b))

/-! ### fast_float.c (part_010) : BTM float multiply on IEEE-754 bit patterns -/

/-- Bipartite log lookup of `fast_float.c` (`btm_log2`): the 23-bit mantissa
is truncated to 14 bits, split into a 9-bit coarse index into `t1` and a
9-bit fine index into the signed `t2`, and the sum is clamped to
`[0,65535]`.  The (externally generated) tables are parameters. -/
def btm_log2 (t1 : Nat → Nat) (t2 : Nat → Int) (mantissaBits : Nat) : Nat :=
  let idx := (mantissaBits >>> 9) % 65536
  let i12 := idx >>> 5
  let i13 := ((idx >>> 10) <<< 5) + (idx % 32)
  let res : Int := (t1 i12 : Int) + t2 i13
  if res < 0 then 0 else if 65535 < res then 65535 else res.toNat

/-- Bipartite exponential lookup of `fast_float.c` (`btm_exp2`): symmetric
construction over a 16-bit fractional log, returning a Q23 mantissa
(`res << 7`). -/
def btm_exp2 (t1 : Nat → Nat) (t2 : Nat → Int) (logFrac : Nat) : Nat :=
  let idx := (logFrac >>> 2) % 65536
  let i12 := idx >>> 5
  let i13 := ((idx >>> 10) <<< 5) + (idx % 32)
  let res : Int := (t1 i12 : Int) + t2 i13
  let c := if res < 0 then 0 else if 65535 < res then 65535 else res.toNat
  c <<< 7

/-- The approximate float multiply of `fast_float.c` (`fast_mul_f32`),
expressed on the 32-bit IEEE-754 encodings (the C union type-pun is the
identity on bits): zero if either magnitude is zero, else sum the two
mantissa logs with carry into the exponent, flush to zero on
`exponent <= 0`, saturate to a signed infinity on `exponent >= 255`, and
otherwise assemble sign, exponent and `btm_exp2` of the fractional log. -/
def fast_mul_f32 (lt1 : Nat → Nat) (lt2 : Nat → Int) (et1 : Nat → Nat) (et2 : Nat → Int)
    (ca cb : Nat) : Nat :=
  let aAbs := ca % 2147483648
  let bAbs := cb % 2147483648
  if aAbs = 0 ∨ bAbs = 0 then 0
  else
    let sa := (ca >>> 31) % 2
    let sb := (cb >>> 31) % 2
    let ea : Int := ((ca >>> 23) % 256 : Nat)
    let eb : Int := ((cb >>> 23) % 256 : Nat)
    let ma := ca % 8388608
    let mb := cb % 8388608
    let la := btm_log2 lt1 lt2 ma
    let lb := btm_log2 lt1 lt2 mb
    let lsum := la + lb
    let carry : Int := (lsum >>> 16 : Nat)
    let lfrac := lsum % 65536
    let er : Int := ea + eb - 127 + carry
    let mr := btm_exp2 et1 et2 lfrac
    let sr := sa ^^^ sb
    if er ≤ 0 then 0
    else if 255 ≤ er then (sr <<< 31) + 2139095040
    else (sr <<< 31) + er.toNat * 8388608 + mr

/-! ### FMT_3d.h (part_015) : fixed-point 3-D pipeline -/

/-- A vector of three Q16.16 components. -/
structure Vec3 where
  x : Int
  y : Int
  z : Int
deriving DecidableEq

/-- `vec3_init` of `FMT_3d.h`. -/
def vec3_init (x y z : Int) : Vec3 := ⟨x, y, z⟩

/-- A 3x3 matrix of Q16.16 entries (`Mat3` of `FMT_3d.h`). -/
structure Mat3 where
  m00 : Int
  m01 : Int
  m02 : Int
  m10 : Int
  m11 : Int
  m12 : Int
  m20 : Int
  m21 : Int
  m22 : Int
deriving DecidableEq

/-- Z-Y-X Euler rotation matrix (`mat3_rotation_euler`): each entry follows
the source expression, with 64-bit intermediate products (the triple
products are shifted right by 32, the double products by 16), and each
`int32_t` store wrapped. -/
def mat3_rotation_euler (ax ay az : Nat) : Mat3 :=
  let sx := sin_q16 ax
  let cx := cos_q16 ax
  let sy := sin_q16 ay
  let cy := cos_q16 ay
  let sz := sin_q16 az
  let cz := cos_q16 az
  { m00 := wrap32 (asr (cz * cy) 16)
    m01 := wrap32 (wrap32 (asr (cz * sy * sx) 32) - wrap32 (asr (sz * cx) 16))
    m02 := wrap32 (wrap32 (asr (cz * sy * cx) 32) + wrap32 (asr (sz * sx) 16))
    m10 := wrap32 (asr (sz * cy) 16)
    m11 := wrap32 (wrap32 (asr (sz * sy * sx) 32) + wrap32 (asr (cz * cx) 16))
    m12 := wrap32 (wrap32 (asr (sz * sy * cx) 32) - wrap32 (asr (cz * sx) 16))
    m20 := wrap32 (-sy)
    m21 := wrap32 (asr (cy * sx) 16)
    m22 := wrap32 (asr (cy * cx) 16) }

/-- `mat3_mul_vec`: rows dotted with the vector in 64-bit arithmetic, shifted
right 16 and stored into `int32_t`. -/
def mat3_mul_vec (M : Mat3) (v : Vec3) : Vec3 :=
  { x := wrap32 (asr (wrap64 (M.m00 * v.x + M.m01 * v.y + M.m02 * v.z)) 16)
    y := wrap32 (asr (wrap64 (M.m10 * v.x + M.m11 * v.y + M.m12 * v.z)) 16)
    z := wrap32 (asr (wrap64 (M.m20 * v.x + M.m21 * v.y + M.m22 * v.z)) 16) }

/-- The denominator actually passed to the divisions of
`project_perspective`: `v.z + focal` (`int32_t` addition), with 0 replaced
by 1. -/
def perspective_denom (z focal : Int) : Int :=
  let d := wrap32 (z + focal)
  if d = 0 then 1 else d

/-- Standard perspective projection (`project_perspective` of `FMT_3d.h`):
x and y are multiplied by `focal` and divided by `v.z + focal` (0 replaced
by 1) with the exact Q16.16 operations; z passes through. -/
def project_perspective (v : Vec3) (focal : Int) : Vec3 :=
  let denom := perspective_denom v.z focal
  vec3_init (q16_div_s (q16_mul_s v.x focal) denom)
            (q16_div_s (q16_mul_s v.y focal) denom)
            v.z

/-- Log-domain fused perspective projection (`project_perspective_ap`):
the denominator is clamped to 1 when `<= 0`, a single log-domain factor
`log2_q8 focal - log2_q8 denom` is formed, and each of x and y is sent
through `exp2_q8(log2_q8 |.| + factor)` with the sign reapplied. -/
def project_perspective_ap (v : Vec3) (focal : Int) : Vec3 :=
  let d0 := wrap32 (v.z + focal)
  let denom := if d0 ≤ 0 then 1 else d0
  let logFactor := log2_q8 (Int.emod focal 4294967296).toNat -
    log2_q8 (Int.emod denom 4294967296).toNat
  let px0 : Int :=
    if v.x = 0 then 0 else wrap32 ((exp2_q8 (log2_q8 v.x.natAbs + logFactor) : Int))
  let px := if v.x < 0 then wrap32 (-px0) else px0
  let py0 : Int :=
    if v.y = 0 then 0 else wrap32 ((exp2_q8 (log2_q8 v.y.natAbs + logFactor) : Int))
  let py := if v.y < 0 then wrap32 (-py0) else py0
  vec3_init px py v.z

/-- `pipeline_mvp`: scale the local vector, rotate it with the Z-Y-X Euler
matrix, translate (each `+=` an `int32_t` addition), then apply the standard
perspective projection. -/
def pipeline_mvp (vLocal : Vec3) (scale : Int) (ax ay az : Nat) (trans : Vec3)
    (focal : Int) : Vec3 :=
  let R := mat3_rotation_euler ax ay az
  let world := vec3_init (q16_mul_s vLocal.x scale) (q16_mul_s vLocal.y scale)
    (q16_mul_s vLocal.z scale)
  let world := mat3_mul_vec R world
  let world := vec3_init (wrap32 (world.x + trans.x)) (wrap32 (world.y + trans.y))
    (wrap32 (world.z + trans.z))
  project_perspective world focal

/-- `pipeline_mvp_fused`: textually the same model-view steps as
`pipeline_mvp`, followed by the log-domain fused projection instead of the
standard one. -/
def pipeline_mvp_fused (vLocal : Vec3) (scale : Int) (ax ay az : Nat) (trans : Vec3)
    (focal : Int) : Vec3 :=
  let R := mat3_rotation_euler ax ay az
  let world := vec3_init (q16_mul_s vLocal.x scale) (q16_mul_s vLocal.y scale)
    (q16_mul_s vLocal.z scale)
  let world := mat3_mul_vec R world
  let world := vec3_init (wrap32 (world.x + trans.x)) (wrap32 (world.y + trans.y))
    (wrap32 (world.z + trans.z))
  project_perspective_ap world focal

/-- The common model-view prefix that both pipelines execute before their
respective projections (a statement-side name for the shared source text of
`pipeline_mvp` and `pipeline_mvp_fused`): scale, rotate, translate. -/
def pipeline_world (vLocal : Vec3) (scale : Int) (ax ay az : Nat) (trans : Vec3) : Vec3 :=
  let R := mat3_rotation_euler ax ay az
  let world := vec3_init (q16_mul_s vLocal.x scale) (q16_mul_s vLocal.y scale)
    (q16_mul_s vLocal.z scale)
  let world := mat3_mul_vec R world
  vec3_init (wrap32 (world.x + trans.x)) (wrap32 (world.y + trans.y))
    (wrap32 (world.z + trans.z))

/-- A 4x4 matrix of Q16.16 entries, indexed like the C array `m[4][4]`. -/
abbrev Mat4 := Fin 4 → Fin 4 → Int

/-- `mat4_identity`: `Q16_ONE` on the diagonal, 0 elsewhere. -/
def mat4_identity : Mat4 := fun i j => if i = j then 65536 else 0

/-- `mat4_mul`: each entry is the 64-bit dot product of a row of `A` with a
column of `B`, shifted right 16 and stored into `int32_t`. -/
def mat4_mul (A B : Mat4) : Mat4 := fun i j =>
  wrap32 (asr (wrap64 (A i 0 * B 0 j + A i 1 * B 1 j + A i 2 * B 2 j + A i 3 * B 3 j)) 16)

/-- Analysis-side canonical form of the normalisation performed inside
`log2_q8` and `fast_log2_q8_8`: the top 8 bits of a nonzero value, shifted
so the leading bit lands at bit 7 (a mantissa in `[128,255]`). -/
def mant (v : Nat) : Nat :=
  if 7 ≤ Nat.log 2 v then v >>> (Nat.log 2 v - 7) else v <<< (7 - Nat.log 2 v)

/-! ### Step-count model for the bounded-time property (spec section 5) -/

/-- Number of primitive steps (comparisons, table lookups, shifts, and
arithmetic operations) executed by `log2_q8`, tallied per branch from the
source: the zero case performs 1 comparison; the four mantissa branches
perform 2/3/4/4 comparisons plus 2 table lookups, 2-3 shifts and 4-5
arithmetic operations.  There is no loop, so the count depends only on which
branch is taken, never on the magnitude of `v`. -/
def log2_q8_cost (v : Nat) : Nat :=
  if v = 0 then 1 else
  if v >>> 24 ≠ 0 then 11
  else if v >>> 16 ≠ 0 then 12
  else if v >>> 8 ≠ 0 then 13
  else 13

/-- Steps executed by `exp2_q8`, tallied per branch from the source: the
sentinel case performs 1 comparison; every other path performs the `ip`/`fr`
split (2 shifts/masks), one table lookup, at most 4 comparisons and at most
3 further shift/arithmetic operations. -/
def exp2_q8_cost (y : Int) : Nat :=
  if y = -2147483648 then 1 else
  let ip : Int := asr y 8
  if ip < 0 then 11
  else if 31 < ip then 6
  else if 8 ≤ ip then 11
  else 9

/-- Steps executed by `mul_u16_ap`: the zero test, both logarithms, one
addition, and the exponential. -/
def mul_u16_ap_cost (a b : Nat) : Nat :=
  if a = 0 ∨ b = 0 then 1 else
  1 + log2_q8_cost a + log2_q8_cost b + 1 + exp2_q8_cost (log2_q8 a + log2_q8 b)

/-- Steps executed by `div_u32_u16_ap`. -/
def div_u32_u16_ap_cost (n d : Nat) : Nat :=
  if d = 0 then 1 else if n = 0 then 2 else
  2 + log2_q8_cost n + log2_q8_cost d + 1 + exp2_q8_cost (log2_q8 n - log2_q8 d)

/-! ### Basic lemmas: wrap identities, table bridges and bounds -/

theorem wrap8_eq_self (x : Int) (h1 : -128 ≤ x) (h2 : x < 128) : wrap8 x = x := by
  unfold wrap8; omega

theorem wrap16_eq_self (x : Int) (h1 : -32768 ≤ x) (h2 : x < 32768) : wrap16 x = x := by
  unfold wrap16; omega

theorem wrap32_eq_self (x : Int) (h1 : -2147483648 ≤ x) (h2 : x < 2147483648) :
    wrap32 x = x := by
  unfold wrap32; omega

theorem wrap64_eq_self (x : Int) (h1 : -9223372036854775808 ≤ x)
    (h2 : x < 9223372036854775808) : wrap64 x = x := by
  unfold wrap64; omega

theorem getD_range_map (f : Nat → Nat) (n i : Nat) (h : i < n) :
    ((List.range n).map f).getD i 0 = f i := by
  have hlen : i < ((List.range n).map f).length := by simpa using h
  rw [List.getD_eq_getElem _ _ hlen]
  simp

theorem msb_bridge : msb_table = (List.range 256).map tblM := by decide

theorem log_bridge : log2_table_q8 = (List.range 256).map tblL := by decide

theorem exp_bridge : exp2_table_q8 = (List.range 256).map tblE := by decide

theorem lse_bridge : lse_table_q8 = (List.range 256).map tblLse := by decide

theorem packed_bridge :
    ∀ i : Nat, i < 256 → nget log2_table_q8 i = tblL i ∧ nget exp2_table_q8 i = tblE i := by
  intro i h
  unfold nget
  rw [log_bridge, exp_bridge, getD_range_map _ _ _ h, getD_range_map _ _ _ h]
  exact ⟨rfl, rfl⟩

theorem tblL_bounds : ∀ m : Nat, m < 256 → 128 ≤ m → 1792 ≤ tblL m ∧ tblL m ≤ 2047 := by
  decide

theorem tblE_bounds : ∀ f : Nat, f < 256 → 256 ≤ tblE f ∧ tblE f ≤ 511 := by
  decide

theorem log_tbl_bounds (m : Nat) (h1 : 128 ≤ m) (h2 : m < 256) :
    1792 ≤ nget log2_table_q8 m ∧ nget log2_table_q8 m ≤ 2047 := by
  rw [(packed_bridge m h2).1]; exact tblL_bounds m h2 h1

theorem exp_tbl_bounds (f : Nat) (h : f < 256) :
    256 ≤ nget exp2_table_q8 f ∧ nget exp2_table_q8 f ≤ 511 := by
  rw [(packed_bridge f h).2]; exact tblE_bounds f h

theorem exp_tbl_le (f : Nat) : nget exp2_table_q8 f ≤ 511 := by
  rcases Nat.lt_or_ge f 256 with h | h
  · exact (exp_tbl_bounds f h).2
  · unfold nget
    rw [List.getD_eq_default]
    · omega
    · norm_num [exp2_table_q8]
      omega

/-! ### The msb table computes the floor of log2 -/

theorem msb_pow_bounds :
    ∀ x : Nat, x < 256 → 1 ≤ x →
      2 ^ (tblM x) ≤ x ∧ x < 2 ^ (tblM x + 1) := by
  decide

theorem msb_eq_log (x : Nat) (h1 : 1 ≤ x) (h2 : x < 256) :
    tblM x = Nat.log 2 x := by
  obtain ⟨hl, hu⟩ := msb_pow_bounds x h2 h1
  exact (Nat.log_eq_of_pow_le_of_lt_pow hl hu).symm

theorem log_shift (k v : Nat) (h : v >>> k ≠ 0) :
    Nat.log 2 v = k + Nat.log 2 (v >>> k) := by
  have hpos : 0 < v >>> k := Nat.pos_of_ne_zero h
  rw [Nat.shiftRight_eq_div_pow] at hpos ⊢
  have hk : 0 < 2 ^ k := Nat.pos_pow_of_pos k (by norm_num)
  have h1 : 2 ^ Nat.log 2 (v / 2 ^ k) ≤ v / 2 ^ k := Nat.pow_log_le_self 2 (by omega)
  have h2 : v / 2 ^ k < 2 ^ (Nat.log 2 (v / 2 ^ k) + 1) :=
    Nat.lt_pow_succ_log_self (by norm_num) _
  have h3 : 2 ^ (k + Nat.log 2 (v / 2 ^ k)) ≤ v := by
    rw [pow_add]
    calc 2 ^ k * 2 ^ Nat.log 2 (v / 2 ^ k) ≤ 2 ^ k * (v / 2 ^ k) :=
          Nat.mul_le_mul_left _ h1
      _ ≤ v := by rw [Nat.mul_comm]; exact Nat.div_mul_le_self v (2 ^ k)
  have h4 : v < 2 ^ (k + Nat.log 2 (v / 2 ^ k) + 1) := by
    have := (Nat.div_lt_iff_lt_mul hk).mp h2
    calc v < 2 ^ (Nat.log 2 (v / 2 ^ k) + 1) * 2 ^ k := this
      _ = 2 ^ (k + Nat.log 2 (v / 2 ^ k) + 1) := by rw [← pow_add]; ring_nf
  exact Nat.log_eq_of_pow_le_of_lt_pow h3 h4

/-! ### Characterisation of the normalisation and of `log2_q8` -/

theorem lt_div_succ_mul (a b : Nat) (hb : 0 < b) : a < (a / b + 1) * b := by
  have h1 := Nat.div_add_mod a b
  have h2 := Nat.mod_lt a hb
  calc a = b * (a / b) + a % b := h1.symm
    _ < b * (a / b) + b := by omega
    _ = (a / b + 1) * b := by ring

theorem mant_spec (v : Nat) (h : 1 ≤ v) :
    128 ≤ mant v ∧ mant v ≤ 255 ∧
    mant v * 2 ^ Nat.log 2 v ≤ 128 * v ∧ 128 * v < (mant v + 1) * 2 ^ Nat.log 2 v := by
  have he1 : 2 ^ Nat.log 2 v ≤ v := Nat.pow_log_le_self 2 (by omega)
  have he2 : v < 2 ^ (Nat.log 2 v + 1) := Nat.lt_pow_succ_log_self (by norm_num) v
  unfold mant
  split
  · next h7 =>
    set e := Nat.log 2 v with he
    obtain ⟨d, hd⟩ : ∃ d, e = d + 7 := ⟨e - 7, by omega⟩
    have hdpos : 0 < 2 ^ d := Nat.pos_pow_of_pos d (by norm_num)
    rw [Nat.shiftRight_eq_div_pow]
    have hsub : e - 7 = d := by omega
    rw [hsub, hd]
    rw [hd] at he1 he2
    have hlow : 128 ≤ v / 2 ^ d := by
      rw [Nat.le_div_iff_mul_le hdpos]
      calc 128 * 2 ^ d = 2 ^ (d + 7) := by rw [pow_add]; ring
        _ ≤ v := he1
    have hhi : v / 2 ^ d < 256 := by
      rw [Nat.div_lt_iff_lt_mul hdpos]
      calc v < 2 ^ (d + 7 + 1) := he2
        _ = 256 * 2 ^ d := by rw [pow_add, pow_add]; ring
    refine ⟨hlow, by omega, ?_, ?_⟩
    · calc v / 2 ^ d * 2 ^ (d + 7) = v / 2 ^ d * 2 ^ d * 2 ^ 7 := by rw [pow_add]; ring
        _ ≤ v * 2 ^ 7 := Nat.mul_le_mul_right _ (Nat.div_mul_le_self v (2 ^ d))
        _ = 128 * v := by ring
    · have hv : v < (v / 2 ^ d + 1) * 2 ^ d := lt_div_succ_mul v (2 ^ d) hdpos
      calc 128 * v = v * 2 ^ 7 := by ring
        _ < (v / 2 ^ d + 1) * 2 ^ d * 2 ^ 7 :=
            (Nat.mul_lt_mul_right (by norm_num)).mpr hv
        _ = (v / 2 ^ d + 1) * 2 ^ (d + 7) := by rw [pow_add]; ring
  · next h7 =>
    set e := Nat.log 2 v with he
    have h7' : e < 7 := by omega
    obtain ⟨d, hd⟩ : ∃ d, 7 = e + d := ⟨7 - e, by omega⟩
    have hsub : 7 - e = d := by omega
    have hdpos : 0 < 2 ^ d := Nat.pos_pow_of_pos d (by norm_num)
    have hepos : 0 < 2 ^ e := Nat.pos_pow_of_pos e (by norm_num)
    rw [Nat.shiftLeft_eq, hsub]
    have hkey : v * 2 ^ d * 2 ^ e = 128 * v := by
      calc v * 2 ^ d * 2 ^ e = v * 2 ^ (d + e) := by rw [pow_add]; ring
        _ = v * 2 ^ 7 := by rw [Nat.add_comm d e, ← hd]
        _ = 128 * v := by ring
    have hm1 : (128:Nat) ≤ v * 2 ^ d := by
      calc (128:Nat) = 2 ^ e * 2 ^ d := by rw [← pow_add, ← hd]; norm_num
        _ ≤ v * 2 ^ d := Nat.mul_le_mul_right _ he1
    have hm2 : v * 2 ^ d ≤ 255 := by
      have hlt : v * 2 ^ d < 2 ^ (e + 1) * 2 ^ d := (Nat.mul_lt_mul_right hdpos).mpr he2
      have h256 : 2 ^ (e + 1) * 2 ^ d = 256 := by
        rw [← pow_add]
        have h8 : e + 1 + d = 8 := by omega
        rw [h8]
        norm_num
      omega
    refine ⟨hm1, hm2, le_of_eq hkey, ?_⟩
    calc 128 * v = v * 2 ^ d * 2 ^ e := hkey.symm
      _ < (v * 2 ^ d + 1) * 2 ^ e := (Nat.mul_lt_mul_right hepos).mpr (by omega)

theorem mant_eq_shift (v : Nat) (h7 : 7 ≤ Nat.log 2 v) :
    mant v = v >>> (Nat.log 2 v - 7) := by
  unfold mant
  rw [if_pos h7]

theorem shiftRight_lt_of_lt (v k b : Nat) (h : v < 2 ^ k * b) : v >>> k < b := by
  rw [Nat.shiftRight_eq_div_pow]
  exact Nat.div_lt_of_lt_mul h

theorem shiftRight_eq_zero_iff (v k : Nat) : v >>> k = 0 ↔ v < 2 ^ k := by
  rw [Nat.shiftRight_eq_div_pow]
  exact Nat.div_eq_zero_iff (Nat.pos_pow_of_pos k (by norm_num))

theorem log2_q8_eq (v : Nat) (h1 : 1 ≤ v) (h2 : v < 4294967296) :
    log2_q8 v = ((Nat.log 2 v : Int) - 7) * 256 + (tblL (mant v) : Int) := by
  have hms := mant_spec v h1
  unfold log2_q8
  rw [if_neg (by omega)]
  split
  · next hb =>
    have hlt : v >>> 24 < 256 := shiftRight_lt_of_lt v 24 256 (by norm_num; omega)
    have hmsb := msb_eq_log (v >>> 24) (Nat.pos_of_ne_zero hb) hlt
    have hlog := log_shift 24 v hb
    have he : 24 + tblM (v >>> 24) = Nat.log 2 v := by rw [hmsb]; omega
    have h7 : 7 ≤ Nat.log 2 v := by omega
    have hm16 : (v >>> 16) % 65536 = v >>> 16 :=
      Nat.mod_eq_of_lt (shiftRight_lt_of_lt v 16 65536 (by norm_num; omega))
    have hshift : (v >>> 16) >>> (24 + tblM (v >>> 24) - 23) = v >>> (Nat.log 2 v - 7) := by
      rw [← Nat.shiftRight_add]
      congr 1
      omega
    have hmant : v >>> (Nat.log 2 v - 7) = mant v := (mant_eq_shift v h7).symm
    simp only [hm16, hshift, hmant, Nat.mod_eq_of_lt (show mant v < 256 by omega)]
    rw [he]
  · next hb =>
    have hv24 : v < 16777216 := by
      have h := (shiftRight_eq_zero_iff v 24).mp (not_not.mp hb)
      norm_num at h
      omega
    split
    · next hb2 =>
      have hlt : v >>> 16 < 256 := shiftRight_lt_of_lt v 16 256 (by norm_num; omega)
      have hmod : (v >>> 16) % 256 = v >>> 16 := Nat.mod_eq_of_lt hlt
      have hmsb := msb_eq_log (v >>> 16) (Nat.pos_of_ne_zero hb2) hlt
      have hlog := log_shift 16 v hb2
      have he : 16 + tblM ((v >>> 16) % 256) = Nat.log 2 v := by rw [hmod, hmsb]; omega
      have h7 : 7 ≤ Nat.log 2 v := by omega
      have hm8 : (v >>> 8) % 65536 = v >>> 8 :=
        Nat.mod_eq_of_lt (shiftRight_lt_of_lt v 8 65536 (by norm_num; omega))
      have hshift :
          (v >>> 8) >>> (16 + tblM ((v >>> 16) % 256) - 15) = v >>> (Nat.log 2 v - 7) := by
        rw [← Nat.shiftRight_add]
        congr 1
        omega
      have hmant : v >>> (Nat.log 2 v - 7) = mant v := (mant_eq_shift v h7).symm
      simp only [hm8, hshift, hmant, Nat.mod_eq_of_lt (show mant v < 256 by omega)]
      rw [he]
    · next hb2 =>
      have hv16 : v < 65536 := by
        have h := (shiftRight_eq_zero_iff v 16).mp (not_not.mp hb2)
        norm_num at h
        omega
      split
      · next hb3 =>
        have hlt : v >>> 8 < 256 := shiftRight_lt_of_lt v 8 256 (by norm_num; omega)
        have hmod : (v >>> 8) % 256 = v >>> 8 := Nat.mod_eq_of_lt hlt
        have hmsb := msb_eq_log (v >>> 8) (Nat.pos_of_ne_zero hb3) hlt
        have hlog := log_shift 8 v hb3
        have he : 8 + tblM ((v >>> 8) % 256) = Nat.log 2 v := by rw [hmod, hmsb]; omega
        have h7 : 7 ≤ Nat.log 2 v := by omega
        have hmv : v % 65536 = v := Nat.mod_eq_of_lt hv16
        have hshift : v >>> (8 + tblM ((v >>> 8) % 256) - 7) = v >>> (Nat.log 2 v - 7) := by
          congr 1
          omega
        have hmant : v >>> (Nat.log 2 v - 7) = mant v := (mant_eq_shift v h7).symm
        simp only [hmv, hshift, hmant, Nat.mod_eq_of_lt (show mant v < 256 by omega)]
        rw [he]
      · next hb3 =>
        have hv8 : v < 256 := by
          have h := (shiftRight_eq_zero_iff v 8).mp (not_not.mp hb3)
          norm_num at h
          omega
        have hmv : v % 256 = v := Nat.mod_eq_of_lt hv8
        have hmsb : tblM v = Nat.log 2 v := msb_eq_log v h1 hv8
        rcases Nat.lt_or_ge (Nat.log 2 v) 7 with h7 | h7
        · have hmant : v <<< (7 - Nat.log 2 v) = mant v := by
            unfold mant
            rw [if_neg (by omega)]
          simp only [hmv, hmsb, hmant, Nat.mod_eq_of_lt (show mant v < 256 by omega)]
        · have h77 : Nat.log 2 v = 7 := by
            have hle : Nat.log 2 v ≤ 7 := by
              have hp := Nat.pow_log_le_self 2 (show v ≠ 0 by omega)
              by_contra hc
              push_neg at hc
              have h8 : (2:Nat) ^ 8 ≤ 2 ^ Nat.log 2 v := Nat.pow_le_pow_right (by norm_num) hc
              norm_num at h8
              omega
            omega
          have hmant : v <<< (7 - Nat.log 2 v) = mant v := by
            unfold mant
            rw [if_pos (by omega), h77]
            simp
          simp only [hmv, hmsb, hmant, Nat.mod_eq_of_lt (show mant v < 256 by omega)]

/-! ### Range of `log2_q8` and characterisation of `exp2_q8` -/

theorem log2_q8_range (v : Nat) (h1 : 1 ≤ v) (h2 : v < 4294967296) :
    0 ≤ log2_q8 v ∧ log2_q8 v ≤ 8191 := by
  have hc := log2_q8_eq v h1 h2
  have hm := mant_spec v h1
  have hT := tblL_bounds (mant v) (by omega) (by omega)
  have hlog : Nat.log 2 v ≤ 31 := by
    have h32 : v < 2 ^ 32 := by norm_num; omega
    have := Nat.log_lt_of_lt_pow (show v ≠ 0 by omega) h32
    omega
  rw [hc]
  omega

theorem log2_q8_range16 (v : Nat) (h1 : 1 ≤ v) (h2 : v ≤ 65535) :
    0 ≤ log2_q8 v ∧ log2_q8 v ≤ 4095 := by
  have hc := log2_q8_eq v h1 (by omega)
  have hm := mant_spec v h1
  have hT := tblL_bounds (mant v) (by omega) (by omega)
  have hlog : Nat.log 2 v ≤ 15 := by
    have h16 : v < 2 ^ 16 := by norm_num; omega
    have := Nat.log_lt_of_lt_pow (show v ≠ 0 by omega) h16
    omega
  rw [hc]
  omega

theorem asr_natCast (n k : Nat) : asr (n : Int) k = ((n >>> k : Nat) : Int) := by
  unfold asr
  rw [Int.fdiv_eq_tdiv (by positivity) (by positivity), Nat.shiftRight_eq_div_pow]
  rw [show ((2:Int) ^ k) = ((2 ^ k : Nat) : Int) by push_cast; rfl]
  rw [← Int.ofNat_tdiv]

theorem emod_natCast (n m : Nat) :
    Int.emod (n : Int) (m : Int) = ((n % m : Nat) : Int) :=
  (Int.natCast_mod n m).symm

theorem emod256_toNat (n : Nat) : (Int.emod (n : Int) 256).toNat = n % 256 := by
  rw [show (256:Int) = ((256:Nat):Int) from rfl, emod_natCast, Int.toNat_natCast]

theorem exp2_q8_eq (n : Nat) (h1 : n < 8192) :
    exp2_q8 (n : Int) = tblE (n % 256) * 2 ^ (n / 256) / 256 := by
  have hEle : tblE (n % 256) ≤ 511 := (tblE_bounds (n % 256) (by omega)).2
  have hq31 : n / 256 ≤ 31 := by omega
  have hsr : n >>> 8 = n / 256 := by
    rw [Nat.shiftRight_eq_div_pow]
  unfold exp2_q8
  rw [if_neg (by omega)]
  simp only [asr_natCast, emod256_toNat, Int.toNat_natCast, hsr]
  rw [if_neg (not_lt.mpr (by positivity))]
  rw [if_neg (show ¬((31:Int) < ((n / 256 : Nat) : Int)) by exact_mod_cast Nat.not_lt.mpr hq31)]
  rcases Nat.lt_or_ge (n / 256) 8 with h8 | h8
  · rw [if_neg (show ¬((8:Int) ≤ ((n / 256 : Nat) : Int)) by exact_mod_cast Nat.not_le.mpr h8)]
    rw [Nat.shiftRight_eq_div_pow]
    have h256 : (256:Nat) = 2 ^ (n / 256) * 2 ^ (8 - n / 256) := by
      rw [← pow_add]
      have he8 : n / 256 + (8 - n / 256) = 8 := by omega
      rw [he8]
      norm_num
    calc tblE (n % 256) / 2 ^ (8 - n / 256)
        = 2 ^ (n / 256) * tblE (n % 256) / (2 ^ (n / 256) * 2 ^ (8 - n / 256)) :=
          (Nat.mul_div_mul_left _ _ (Nat.pos_pow_of_pos _ (by norm_num))).symm
      _ = tblE (n % 256) * 2 ^ (n / 256) / 256 := by rw [mul_comm, ← h256]
  · rw [if_pos (show (8:Int) ≤ ((n / 256 : Nat) : Int) by exact_mod_cast h8)]
    have hs23 : n / 256 - 8 ≤ 23 := by omega
    have hgoal : tblE (n % 256) * 2 ^ (n / 256 - 8) = tblE (n % 256) * 2 ^ (n / 256) / 256 := by
      have hq : n / 256 = (n / 256 - 8) + 8 := by omega
      rw [hq, pow_add]
      norm_num
      rw [← mul_assoc, Nat.mul_div_cancel]
      norm_num
    have hpowle : (2:Nat) ^ (n / 256 - 8) ≤ 2 ^ 23 := Nat.pow_le_pow_right (by norm_num) hs23
    have hsmall : tblE (n % 256) * 2 ^ (n / 256 - 8) < 4294967296 := by
      have := Nat.mul_le_mul hEle hpowle
      norm_num at this
      omega
    rcases Nat.lt_or_ge (n / 256 - 8) 16 with h16 | h16
    · rcases Nat.lt_or_ge (n / 256 - 8) 8 with hs8 | hs8
      · rw [if_neg (by omega), if_neg (by omega), Nat.shiftLeft_eq]
        rw [Nat.mod_eq_of_lt hsmall]
        exact hgoal
      · rw [if_neg (by omega), if_pos (by omega), Nat.shiftLeft_eq, Nat.shiftLeft_eq]
        have h2_8 : tblE (n % 256) * 2 ^ 8 < 4294967296 := by
          have := Nat.mul_le_mul_right 256 hEle
          norm_num at this ⊢
          omega
        rw [Nat.mod_eq_of_lt h2_8, mul_assoc, ← pow_add]
        have h8s : 8 + (n / 256 - 8 - 8) = n / 256 - 8 := by omega
        rw [h8s, Nat.mod_eq_of_lt hsmall]
        exact hgoal
    · rw [if_pos (by omega), Nat.shiftLeft_eq, Nat.shiftLeft_eq]
      have h2_16 : tblE (n % 256) * 2 ^ 16 < 4294967296 := by
        have := Nat.mul_le_mul_right 65536 hEle
        norm_num at this ⊢
        omega
      rw [Nat.mod_eq_of_lt h2_16, mul_assoc, ← pow_add]
      have h16s : 16 + (n / 256 - 8 - 16) = n / 256 - 8 := by omega
      rw [h16s, Nat.mod_eq_of_lt hsmall]
      exact hgoal

/-! ### The standalone `fast_mul.h` implementation computes the same values -/

theorem fast_msb16_eq (v : Nat) (h1 : 1 ≤ v) (h2 : v < 65536) :
    fast_msb16 v = Nat.log 2 v := by
  unfold fast_msb16
  split
  · next hb =>
    have hlt : v >>> 8 < 256 := shiftRight_lt_of_lt v 8 256 (by norm_num; omega)
    rw [msb_eq_log (v >>> 8) (Nat.pos_of_ne_zero hb) hlt, log_shift 8 v hb]
  · next hb =>
    have hv8 : v < 256 := by
      have h := (shiftRight_eq_zero_iff v 8).mp (not_not.mp (by simpa using hb))
      norm_num at h
      omega
    rw [Nat.mod_eq_of_lt hv8]
    exact msb_eq_log v h1 hv8

theorem fast_log2_q8_8_eq (v : Nat) (h1 : 1 ≤ v) (h2 : v < 65536) :
    fast_log2_q8_8 v = ((Nat.log 2 v : Int) - 7) * 256 + (tblL (mant v) : Int) := by
  have hms := mant_spec v h1
  have he1 : 2 ^ Nat.log 2 v ≤ v := Nat.pow_log_le_self 2 (by omega)
  have he2 : v < 2 ^ (Nat.log 2 v + 1) := Nat.lt_pow_succ_log_self (by norm_num) v
  have hlog15 : Nat.log 2 v ≤ 15 := by
    have h16 : v < 2 ^ 16 := by norm_num; omega
    have := Nat.log_lt_of_lt_pow (show v ≠ 0 by omega) h16
    omega
  unfold fast_log2_q8_8 normalize_to_mant8
  rw [if_neg (by omega), if_neg (by omega)]
  simp only [fast_msb16_eq v h1 h2]
  set e := Nat.log 2 v with hedef
  have hshl : v <<< (15 - e) = v * 2 ^ (15 - e) := Nat.shiftLeft_eq v (15 - e)
  have hsmall : v * 2 ^ (15 - e) < 65536 := by
    have hstep : v * 2 ^ (15 - e) < 2 ^ (e + 1) * 2 ^ (15 - e) :=
      (Nat.mul_lt_mul_right (Nat.pos_pow_of_pos _ (by norm_num))).mpr he2
    have hpow : 2 ^ (e + 1) * 2 ^ (15 - e) ≤ 65536 := by
      rw [← pow_add]
      calc (2:Nat) ^ (e + 1 + (15 - e)) ≤ 2 ^ 16 := Nat.pow_le_pow_right (by norm_num) (by omega)
        _ = 65536 := by norm_num
    omega
  have hmod32 : v * 2 ^ (15 - e) % 4294967296 = v * 2 ^ (15 - e) := Nat.mod_eq_of_lt (by omega)
  have htmp : (v * 2 ^ (15 - e)) >>> 8 = mant v := by
    rw [Nat.shiftRight_eq_div_pow]
    rcases Nat.lt_or_ge e 7 with h7 | h7
    · have hsplit : (2:Nat) ^ (15 - e) = 2 ^ (7 - e) * 2 ^ 8 := by
        rw [← pow_add]
        congr 1
        omega
      unfold mant
      rw [if_neg (by omega), Nat.shiftLeft_eq, hsplit, ← mul_assoc]
      norm_num
    · have hsplit : (2:Nat) ^ 8 = 2 ^ (15 - e) * 2 ^ (e - 7) := by
        rw [← pow_add]
        congr 1
        omega
      unfold mant
      rw [if_pos (by omega), Nat.shiftRight_eq_div_pow, hsplit]
      calc v * 2 ^ (15 - e) / (2 ^ (15 - e) * 2 ^ (e - 7))
          = 2 ^ (15 - e) * v / (2 ^ (15 - e) * 2 ^ (e - 7)) := by rw [mul_comm]
        _ = v / 2 ^ (e - 7) := Nat.mul_div_mul_left _ _ (Nat.pos_pow_of_pos _ (by norm_num))
  simp only [hshl, hmod32, htmp, Nat.mod_eq_of_lt (show mant v < 256 by omega)]

theorem fast_exp2_eq (n : Nat) (h1 : n < 8192) :
    fast_exp2_from_q8_8 (n : Int) = tblE (n % 256) * 2 ^ (n / 256) / 256 := by
  have hEle : tblE (n % 256) ≤ 511 := (tblE_bounds (n % 256) (by omega)).2
  have hq31 : n / 256 ≤ 31 := by omega
  have hsr : n >>> 8 = n / 256 := by
    rw [Nat.shiftRight_eq_div_pow]
  unfold fast_exp2_from_q8_8
  rw [if_neg (by omega)]
  simp only [asr_natCast, emod256_toNat, Int.toNat_natCast, hsr]
  rw [if_neg (show ¬((32:Int) ≤ ((n / 256 : Nat) : Int)) by exact_mod_cast Nat.not_le.mpr (by omega))]
  rcases Nat.lt_or_ge (n / 256) 8 with h8 | h8
  · rw [if_neg (show ¬((8:Int) ≤ ((n / 256 : Nat) : Int)) by exact_mod_cast Nat.not_le.mpr h8)]
    rw [if_pos (by positivity)]
    rw [Nat.shiftRight_eq_div_pow]
    have h256 : (256:Nat) = 2 ^ (n / 256) * 2 ^ (8 - n / 256) := by
      rw [← pow_add]
      have he8 : n / 256 + (8 - n / 256) = 8 := by omega
      rw [he8]
      norm_num
    calc tblE (n % 256) / 2 ^ (8 - n / 256)
        = 2 ^ (n / 256) * tblE (n % 256) / (2 ^ (n / 256) * 2 ^ (8 - n / 256)) :=
          (Nat.mul_div_mul_left _ _ (Nat.pos_pow_of_pos _ (by norm_num))).symm
      _ = tblE (n % 256) * 2 ^ (n / 256) / 256 := by rw [mul_comm, ← h256]
  · rw [if_pos (show (8:Int) ≤ ((n / 256 : Nat) : Int) by exact_mod_cast h8)]
    have hs23 : n / 256 - 8 ≤ 23 := by omega
    have hpowle : (2:Nat) ^ (n / 256 - 8) ≤ 2 ^ 23 := Nat.pow_le_pow_right (by norm_num) hs23
    have hsmall : tblE (n % 256) * 2 ^ (n / 256 - 8) < 4294967296 := by
      have := Nat.mul_le_mul hEle hpowle
      norm_num at this
      omega
    rw [Nat.shiftLeft_eq, Nat.mod_eq_of_lt hsmall]
    have hq : n / 256 = (n / 256 - 8) + 8 := by omega
    rw [hq, pow_add]
    norm_num
    rw [← mul_assoc, Nat.mul_div_cancel]
    norm_num

theorem sum_logs_natCast (a b : Nat) (h1a : 1 ≤ a) (ha : a ≤ 65535) (h1b : 1 ≤ b)
    (hb : b ≤ 65535) :
    ∃ N : Nat, log2_q8 a + log2_q8 b = (N : Int) ∧ N < 8192 := by
  obtain ⟨hla, hua⟩ := log2_q8_range16 a h1a ha
  obtain ⟨hlb, hub⟩ := log2_q8_range16 b h1b hb
  refine ⟨(log2_q8 a + log2_q8 b).toNat, ?_, ?_⟩
  · rw [Int.toNat_of_nonneg (by omega)]
  · omega

theorem fast_eq_core (a b : Nat) (h1a : 1 ≤ a) (ha : a ≤ 65535) (h1b : 1 ≤ b)
    (hb : b ≤ 65535) : fast_log_mul_u16 a b = mul_u16_ap a b := by
  unfold fast_log_mul_u16 mul_u16_ap
  rw [if_neg (by omega), if_neg (by omega)]
  have hla : fast_log2_q8_8 a = log2_q8 a := by
    rw [fast_log2_q8_8_eq a h1a (by omega), log2_q8_eq a h1a (by omega)]
  have hlb : fast_log2_q8_8 b = log2_q8 b := by
    rw [fast_log2_q8_8_eq b h1b (by omega), log2_q8_eq b h1b (by omega)]
  obtain ⟨N, hN, hNlt⟩ := sum_logs_natCast a b h1a ha h1b hb
  rw [hla, hlb, hN, fast_exp2_eq N hNlt, exp2_q8_eq N hNlt]

/-! ### Finite checks for the multiply error bound (25|R - ab| <= ab) -/

set_option maxHeartbeats 16000000 in
theorem pair_check :
    ∀ x : Nat, x < 256 → 128 ≤ x → ∀ y : Nat, y < 256 → 128 ≤ y →
      24 * ((x + 1) * (y + 1)) * 256 ≤
        25 * (tblE ((tblL x + tblL y) % 256) * 2 ^ ((tblL x + tblL y) / 256)) ∧
      25 * (tblE ((tblL x + tblL y) % 256) * 2 ^ ((tblL x + tblL y) / 256)) ≤
        26 * (x * y) * 256 := by
  decide

set_option maxHeartbeats 4000000 in
theorem small_products :
    ∀ a : Nat, a < 511 → ∀ b : Nat, b < 511 / (a + 1) →
      25 * ((mul_u16_ap (a + 1) (b + 1) : Int) - (((a + 1) * (b + 1) : Nat) : Int)).natAbs ≤
        (a + 1) * (b + 1) := by
  decide

/-! ### C1: assembly of the relative-error bound for the approximate multiply -/

theorem c1_combine (ab R EX ma mb ea eb q : Nat)
    (hip8 : 8 ≤ ea + eb + q - 14)
    (hRv : R * 256 = EX * 2 ^ (ea + eb + q - 14))
    (hpL : 24 * ((ma + 1) * (mb + 1)) * 256 ≤ 25 * (EX * 2 ^ q))
    (hpU : 25 * (EX * 2 ^ q) ≤ 26 * (ma * mb) * 256)
    (habL : ma * mb * 2 ^ (ea + eb) ≤ 16384 * ab)
    (habU : 16384 * ab < (ma + 1) * (mb + 1) * 2 ^ (ea + eb)) :
    24 * ab < 25 * R ∧ 25 * R ≤ 26 * ab := by
  have hpow : 2 ^ q * 2 ^ (ea + eb) = 2 ^ (ea + eb + q - 14) * 2 ^ 14 := by
    rw [← pow_add, ← pow_add]
    congr 1
    omega
  have hmid : 25 * (EX * 2 ^ q) * 2 ^ (ea + eb) = 4194304 * (25 * R) := by
    calc 25 * (EX * 2 ^ q) * 2 ^ (ea + eb)
        = 25 * (EX * (2 ^ q * 2 ^ (ea + eb))) := by ring
      _ = 25 * (EX * (2 ^ (ea + eb + q - 14) * 2 ^ 14)) := by rw [hpow]
      _ = 25 * (EX * 2 ^ (ea + eb + q - 14)) * 2 ^ 14 := by ring
      _ = 25 * (R * 256) * 2 ^ 14 := by rw [← hRv]
      _ = 4194304 * (25 * R) := by ring
  constructor
  · have h1 : 4194304 * (24 * ab) < 24 * ((ma + 1) * (mb + 1)) * 256 * 2 ^ (ea + eb) := by
      calc 4194304 * (24 * ab) = 24 * 256 * (16384 * ab) := by ring
        _ < 24 * 256 * ((ma + 1) * (mb + 1) * 2 ^ (ea + eb)) :=
            mul_lt_mul_of_pos_left habU (by norm_num)
        _ = 24 * ((ma + 1) * (mb + 1)) * 256 * 2 ^ (ea + eb) := by ring
    have h2 : 24 * ((ma + 1) * (mb + 1)) * 256 * 2 ^ (ea + eb) ≤
        25 * (EX * 2 ^ q) * 2 ^ (ea + eb) := Nat.mul_le_mul_right _ hpL
    have h3 : 4194304 * (24 * ab) < 4194304 * (25 * R) := by
      rw [← hmid]
      omega
    exact Nat.lt_of_mul_lt_mul_left h3
  · have h1 : 25 * (EX * 2 ^ q) * 2 ^ (ea + eb) ≤ 26 * (ma * mb) * 256 * 2 ^ (ea + eb) :=
      Nat.mul_le_mul_right _ hpU
    have h2 : 26 * (ma * mb) * 256 * 2 ^ (ea + eb) ≤ 4194304 * (26 * ab) := by
      calc 26 * (ma * mb) * 256 * 2 ^ (ea + eb)
          = 26 * 256 * (ma * mb * 2 ^ (ea + eb)) := by ring
        _ ≤ 26 * 256 * (16384 * ab) := Nat.mul_le_mul_left _ habL
        _ = 4194304 * (26 * ab) := by ring
    have h3 : 4194304 * (25 * R) ≤ 4194304 * (26 * ab) := by
      rw [← hmid]
      omega
    exact Nat.le_of_mul_le_mul_left h3 (by norm_num)

/-- C1: for 16-bit operands, the approximate integer multiply `mul_u16_ap`
agrees with the standalone `fast_log_mul_u16`, annihilates a zero operand,
and for all nonzero operands its relative error is at most 1/25 (4 percent,
attained at 5*5); this is the fixed pointwise bound that holds for every
pair, alongside the spec's empirical 0.5 percent average. -/
theorem C1_mul_u16_ap_error :
    ∀ a b : Nat, a ≤ 65535 → b ≤ 65535 →
      mul_u16_ap a b = fast_log_mul_u16 a b ∧
      mul_u16_ap a 0 = 0 ∧ mul_u16_ap 0 b = 0 ∧
      (1 ≤ a → 1 ≤ b →
        25 * ((mul_u16_ap a b : Int) - ((a * b : Nat) : Int)).natAbs ≤ a * b) := by
  intro a b ha hb
  refine ⟨?_, by simp [mul_u16_ap], by simp [mul_u16_ap], ?_⟩
  · rcases Nat.eq_zero_or_pos a with rfl | h1a
    · simp [mul_u16_ap, fast_log_mul_u16]
    rcases Nat.eq_zero_or_pos b with rfl | h1b
    · simp [mul_u16_ap, fast_log_mul_u16]
    exact (fast_eq_core a b h1a ha h1b hb).symm
  · intro h1a h1b
    obtain ⟨hma1, hma2, hma3, hma4⟩ := mant_spec a h1a
    obtain ⟨hmb1, hmb2, hmb3, hmb4⟩ := mant_spec b h1b
    obtain ⟨hTa1, hTa2⟩ := tblL_bounds (mant a) (by omega) (by omega)
    obtain ⟨hTb1, hTb2⟩ := tblL_bounds (mant b) (by omega) (by omega)
    have hea : Nat.log 2 a ≤ 15 := by
      have := Nat.log_lt_of_lt_pow (show a ≠ 0 by omega) (show a < 2 ^ 16 by norm_num; omega)
      omega
    have heb : Nat.log 2 b ≤ 15 := by
      have := Nat.log_lt_of_lt_pow (show b ≠ 0 by omega) (show b < 2 ^ 16 by norm_num; omega)
      omega
    have hca := log2_q8_eq a h1a (by omega)
    have hcb := log2_q8_eq b h1b (by omega)
    have hNval : log2_q8 a + log2_q8 b =
        ((256 * (Nat.log 2 a + Nat.log 2 b) + (tblL (mant a) + tblL (mant b)) - 3584 : Nat) : Int) := by
      rw [hca, hcb]
      omega
    have hNlt : 256 * (Nat.log 2 a + Nat.log 2 b) + (tblL (mant a) + tblL (mant b)) - 3584 < 8192 := by
      omega
    have hmul : mul_u16_ap a b =
        exp2_q8 ((256 * (Nat.log 2 a + Nat.log 2 b) + (tblL (mant a) + tblL (mant b)) - 3584 : Nat) : Int) := by
      unfold mul_u16_ap
      rw [if_neg (by omega), hNval]
    have hNdiv : (256 * (Nat.log 2 a + Nat.log 2 b) + (tblL (mant a) + tblL (mant b)) - 3584) / 256 =
        Nat.log 2 a + Nat.log 2 b + (tblL (mant a) + tblL (mant b)) / 256 - 14 := by
      omega
    have hNmod : (256 * (Nat.log 2 a + Nat.log 2 b) + (tblL (mant a) + tblL (mant b)) - 3584) % 256 =
        (tblL (mant a) + tblL (mant b)) % 256 := by
      omega
    rcases Nat.lt_or_ge
        (Nat.log 2 a + Nat.log 2 b + (tblL (mant a) + tblL (mant b)) / 256 - 14) 8 with hip | hip
    · have hEsmall : Nat.log 2 a + Nat.log 2 b ≤ 7 := by omega
      have hab : a * b ≤ 511 := by
        have hha : a < 2 ^ (Nat.log 2 a + 1) := Nat.lt_pow_succ_log_self (by norm_num) a
        have hhb : b < 2 ^ (Nat.log 2 b + 1) := Nat.lt_pow_succ_log_self (by norm_num) b
        have hprod : a * b < 2 ^ (Nat.log 2 a + 1) * 2 ^ (Nat.log 2 b + 1) :=
          mul_lt_mul'' hha hhb (Nat.zero_le a) (Nat.zero_le b)
        have hpow : 2 ^ (Nat.log 2 a + 1) * 2 ^ (Nat.log 2 b + 1) ≤ 512 := by
          rw [← pow_add]
          calc (2:Nat) ^ (Nat.log 2 a + 1 + (Nat.log 2 b + 1)) ≤ 2 ^ 9 :=
                Nat.pow_le_pow_right (by norm_num) (by omega)
            _ = 512 := by norm_num
        omega
      have haub : a ≤ 511 := by
        calc a = a * 1 := (Nat.mul_one a).symm
          _ ≤ a * b := Nat.mul_le_mul_left a h1b
          _ ≤ 511 := hab
      have hble : b ≤ 511 / a := (Nat.le_div_iff_mul_le (by omega)).mpr (by rw [mul_comm]; exact hab)
      have ha1 : a - 1 + 1 = a := by omega
      have hb1 : b - 1 + 1 = b := by omega
      have hs := small_products (a - 1) (by omega) (b - 1) (by rw [ha1]; omega)
      rw [ha1, hb1] at hs
      exact hs
    · have hexp := exp2_q8_eq _ hNlt
      rw [hNdiv, hNmod] at hexp
      rw [hmul, hexp]
      have hRv : tblE ((tblL (mant a) + tblL (mant b)) % 256) *
            2 ^ (Nat.log 2 a + Nat.log 2 b + (tblL (mant a) + tblL (mant b)) / 256 - 14) / 256 * 256 =
          tblE ((tblL (mant a) + tblL (mant b)) % 256) *
            2 ^ (Nat.log 2 a + Nat.log 2 b + (tblL (mant a) + tblL (mant b)) / 256 - 14) := by
        apply Nat.div_mul_cancel
        have h2 : (2:Nat) ^ 8 ∣
            2 ^ (Nat.log 2 a + Nat.log 2 b + (tblL (mant a) + tblL (mant b)) / 256 - 14) :=
          pow_dvd_pow 2 (by omega)
        have h256 : (256:Nat) = 2 ^ 8 := by norm_num
        rw [h256]
        exact Dvd.dvd.mul_left h2 _
      obtain ⟨hpL, hpU⟩ := pair_check (mant a) (by omega) (by omega) (mant b) (by omega) (by omega)
      have habL : mant a * mant b * 2 ^ (Nat.log 2 a + Nat.log 2 b) ≤ 16384 * (a * b) := by
        have h := Nat.mul_le_mul hma3 hmb3
        calc mant a * mant b * 2 ^ (Nat.log 2 a + Nat.log 2 b)
            = mant a * 2 ^ Nat.log 2 a * (mant b * 2 ^ Nat.log 2 b) := by rw [pow_add]; ring
          _ ≤ 128 * a * (128 * b) := h
          _ = 16384 * (a * b) := by ring
      have habU : 16384 * (a * b) <
          (mant a + 1) * (mant b + 1) * 2 ^ (Nat.log 2 a + Nat.log 2 b) := by
        have h := mul_lt_mul'' hma4 hmb4 (Nat.zero_le _) (Nat.zero_le _)
        calc 16384 * (a * b) = 128 * a * (128 * b) := by ring
          _ < (mant a + 1) * 2 ^ Nat.log 2 a * ((mant b + 1) * 2 ^ Nat.log 2 b) := h
          _ = (mant a + 1) * (mant b + 1) * 2 ^ (Nat.log 2 a + Nat.log 2 b) := by
              rw [pow_add]; ring
      obtain ⟨hL, hU⟩ := c1_combine (a * b) _ _ (mant a) (mant b) (Nat.log 2 a) (Nat.log 2 b)
        ((tblL (mant a) + tblL (mant b)) / 256) hip hRv hpL hpU habL habU
      omega

/-- Witness for C1 at the spec's own example pair 500 * 500. -/
theorem C1_witness :
    mul_u16_ap 500 500 = fast_log_mul_u16 500 500 ∧
    mul_u16_ap 500 0 = 0 ∧ mul_u16_ap 0 500 = 0 ∧
    25 * ((mul_u16_ap 500 500 : Int) - ((500 * 500 : Nat) : Int)).natAbs ≤ 500 * 500 := by
  obtain ⟨h1, h2, h3, h4⟩ := C1_mul_u16_ap_error 500 500 (by decide) (by decide)
  exact ⟨h1, h2, h3, h4 (by decide) (by decide)⟩

/-! ### C6: round-trip through the Log32 ring representation -/

set_option maxHeartbeats 2000000 in
theorem c6_small : ∀ v : Nat, v < 255 →
    63 * (v + 1) ≤ 64 * exp2_q8 (log2_q8 (v + 1)) ∧
    64 * exp2_q8 (log2_q8 (v + 1)) ≤ 65 * (v + 1) := by
  decide

theorem c6_per_m : ∀ m : Nat, m < 256 → 128 ≤ m →
    63 * 2 * (m + 1) ≤ 64 * tblE (tblL m % 256) ∧
    64 * tblE (tblL m % 256) ≤ 65 * 2 * m := by
  decide

theorem c6_combine (n R E m A : Nat)
    (hRv : R * 256 = E * A)
    (hlo : m * A ≤ 128 * n)
    (hhi : 128 * n < m * A + A)
    (hpL : 126 * m + 126 ≤ 64 * E)
    (hpU : 64 * E ≤ 130 * m) :
    63 * n ≤ 64 * R ∧ 64 * R ≤ 65 * n := by
  have f1 : (126 * m + 126) * A ≤ 64 * E * A := Nat.mul_le_mul_right A hpL
  have f2 : 64 * E * A ≤ 130 * m * A := Nat.mul_le_mul_right A hpU
  have g1 : (126 * m + 126) * A = 126 * (m * A) + 126 * A := by ring
  have g2 : 64 * E * A = 64 * (E * A) := by ring
  have g3 : 130 * m * A = 130 * (m * A) := by ring
  rw [g1, g2] at f1
  rw [g2, g3] at f2
  omega

theorem c6_core (n : Nat) (h1 : 1 ≤ n) (h2 : n ≤ 2147483647) :
    exp2_q8 (log2_q8 n) ≤ 2147483647 ∧
    63 * n ≤ 64 * exp2_q8 (log2_q8 n) ∧ 64 * exp2_q8 (log2_q8 n) ≤ 65 * n := by
  rcases Nat.lt_or_ge n 256 with hsm | hbig
  · have hn1 : n - 1 < 255 := by omega
    have heq : n - 1 + 1 = n := by omega
    obtain ⟨hb1, hb2⟩ := c6_small (n - 1) hn1
    rw [heq] at hb1 hb2
    exact ⟨by omega, hb1, hb2⟩
  · have he8 : 8 ≤ Nat.log 2 n :=
      (Nat.pow_le_iff_le_log (by norm_num) (by omega)).mp (by omega)
    have he30 : Nat.log 2 n ≤ 30 := by
      have := Nat.log_lt_of_lt_pow (show n ≠ 0 by omega) (show n < 2 ^ 31 by omega)
      omega
    obtain ⟨hm1, hm2, hm3, hm4⟩ := mant_spec n h1
    obtain ⟨hT1, hT2⟩ := tblL_bounds (mant n) (by omega) (by omega)
    have hLeq : log2_q8 n = ((256 * (Nat.log 2 n - 7) + tblL (mant n) : Nat) : Int) := by
      rw [log2_q8_eq n h1 (by omega)]
      omega
    have hNlt : 256 * (Nat.log 2 n - 7) + tblL (mant n) < 8192 := by omega
    have hexp := exp2_q8_eq _ hNlt
    have hdiv : (256 * (Nat.log 2 n - 7) + tblL (mant n)) / 256 = Nat.log 2 n := by omega
    have hmod : (256 * (Nat.log 2 n - 7) + tblL (mant n)) % 256 = tblL (mant n) % 256 := by
      omega
    rw [hdiv, hmod] at hexp
    rw [hLeq, hexp]
    obtain ⟨hE1, hE2⟩ := tblE_bounds (tblL (mant n) % 256) (by omega)
    have hRv : tblE (tblL (mant n) % 256) * 2 ^ Nat.log 2 n / 256 * 256 =
        tblE (tblL (mant n) % 256) * 2 ^ Nat.log 2 n := by
      apply Nat.div_mul_cancel
      have hp : (2:Nat) ^ 8 ∣ 2 ^ Nat.log 2 n := pow_dvd_pow 2 he8
      have h256 : (256:Nat) = 2 ^ 8 := by norm_num
      rw [h256]
      exact Dvd.dvd.mul_left hp _
    have hhi : 128 * n < mant n * 2 ^ Nat.log 2 n + 2 ^ Nat.log 2 n := by
      have hx : (mant n + 1) * 2 ^ Nat.log 2 n =
          mant n * 2 ^ Nat.log 2 n + 2 ^ Nat.log 2 n := by ring
      omega
    obtain ⟨hpm1, hpm2⟩ := c6_per_m (mant n) (by omega) (by omega)
    have hpL : 126 * mant n + 126 ≤ 64 * tblE (tblL (mant n) % 256) := by omega
    have hpU : 64 * tblE (tblL (mant n) % 256) ≤ 130 * mant n := by omega
    obtain ⟨hc1, hc2⟩ :=
      c6_combine n _ _ (mant n) (2 ^ Nat.log 2 n) hRv hm3 hhi hpL hpU
    refine ⟨?_, hc1, hc2⟩
    have hEe : tblE (tblL (mant n) % 256) * 2 ^ Nat.log 2 n ≤ 511 * 2 ^ 30 := by
      calc tblE (tblL (mant n) % 256) * 2 ^ Nat.log 2 n
          ≤ 511 * 2 ^ Nat.log 2 n := Nat.mul_le_mul_right _ hE2
        _ ≤ 511 * 2 ^ 30 :=
            Nat.mul_le_mul_left _ (Nat.pow_le_pow_right (by norm_num) he30)
    omega

/-- C6: the Log32 round-trip.  `to_log32 0` carries sign 0 and converts back
to exactly 0; every other representable `int32_t` value round-trips through
`from_log32 (to_log32 v)` to within a 1/64 relative error of `v` (the
engine's Q8.8 quantization bound), and in particular the result keeps the
sign of `v`. -/
theorem C6_log32_roundtrip :
    ∀ v : Int, -2147483648 ≤ v → v ≤ 2147483647 →
      (to_log32 0).sign = 0 ∧ from_log32 (to_log32 0) = 0 ∧
      (v ≠ 0 →
        64 * (from_log32 (to_log32 v) - v).natAbs ≤ v.natAbs ∧
        (0 < v → 0 < from_log32 (to_log32 v)) ∧
        (v < 0 → from_log32 (to_log32 v) < 0)) := by
  intro v hlov hhiv
  refine ⟨by decide, by decide, ?_⟩
  intro hv
  by_cases hmin : v = -2147483648
  · subst hmin
    exact ⟨by decide, by decide, by decide⟩
  rcases lt_trichotomy v 0 with hneg | rfl | hpos
  · have hn1 : 1 ≤ (-v).toNat := by omega
    have hn2 : (-v).toNat ≤ 2147483647 := by omega
    obtain ⟨hR, hB1, hB2⟩ := c6_core _ hn1 hn2
    obtain ⟨hL0, hL1⟩ := log2_q8_range (-v).toNat hn1 (by omega)
    have hto : to_log32 v = ⟨log2_q8 (-v).toNat, -1⟩ := by
      unfold to_log32
      rw [if_neg hv, if_neg (by omega : ¬ (0 < v)),
        wrap16_eq_self _ (by omega) (by omega)]
    have hfrom : from_log32 ⟨log2_q8 (-v).toNat, -1⟩ =
        -(exp2_q8 (log2_q8 (-v).toNat) : Int) := by
      simp only [from_log32]
      rw [if_neg (by norm_num), if_neg (by norm_num),
        wrap32_eq_self ((exp2_q8 (log2_q8 (-v).toNat) : Int)) (by omega) (by omega),
        wrap32_eq_self (-((exp2_q8 (log2_q8 (-v).toNat) : Nat) : Int)) (by omega) (by omega)]
    rw [hto, hfrom]
    refine ⟨by omega, by omega, by omega⟩
  · exact absurd rfl hv
  · have hn1 : 1 ≤ v.toNat := by omega
    have hn2 : v.toNat ≤ 2147483647 := by omega
    obtain ⟨hR, hB1, hB2⟩ := c6_core _ hn1 hn2
    obtain ⟨hL0, hL1⟩ := log2_q8_range v.toNat hn1 (by omega)
    have hto : to_log32 v = ⟨log2_q8 v.toNat, 1⟩ := by
      unfold to_log32
      rw [if_neg hv, if_pos hpos, wrap16_eq_self _ (by omega) (by omega)]
    have hfrom : from_log32 ⟨log2_q8 v.toNat, 1⟩ =
        (exp2_q8 (log2_q8 v.toNat) : Int) := by
      simp only [from_log32]
      rw [if_neg (by norm_num), if_pos (by norm_num),
        wrap32_eq_self _ (by omega) (by omega)]
    rw [hto, hfrom]
    refine ⟨by omega, by omega, by omega⟩

/-- Witness for C6 at v = 1000. -/
theorem C6_witness :
    (to_log32 0).sign = 0 ∧ from_log32 (to_log32 0) = 0 ∧
    64 * (from_log32 (to_log32 1000) - 1000).natAbs ≤ (1000 : Int).natAbs ∧
    0 < from_log32 (to_log32 1000) := by
  obtain ⟨h1, h2, h3⟩ := C6_log32_roundtrip 1000 (by decide) (by decide)
  obtain ⟨h4, h5, h6⟩ := h3 (by decide)
  exact ⟨h1, h2, h4, h5 (by decide)⟩

/-! ### C2: case structure of the BTM float multiply -/

/-- C2: for all bipartite tables and all IEEE-754 bit patterns,
`fast_mul_f32` returns 0 when either operand's magnitude (the bits below the
sign) is zero; otherwise, with the carry of the summed mantissa logs folded
into the exponent `e = ea + eb - 127 + carry` and the sign the xor of the
operand signs, it flushes to 0 for `e <= 0`, saturates to the signed
infinity encoding for `e >= 255`, and otherwise assembles sign, exponent and
`btm_exp2` of the fractional log. -/
theorem C2_fast_mul_f32_structure :
    ∀ (lt1 : Nat → Nat) (lt2 : Nat → Int) (et1 : Nat → Nat) (et2 : Nat → Int) (ca cb : Nat),
      (ca % 2147483648 = 0 ∨ cb % 2147483648 = 0 →
        fast_mul_f32 lt1 lt2 et1 et2 ca cb = 0) ∧
      (¬(ca % 2147483648 = 0 ∨ cb % 2147483648 = 0) →
        ((((ca >>> 23) % 256 : Nat) : Int) + (((cb >>> 23) % 256 : Nat) : Int) - 127 +
            (((btm_log2 lt1 lt2 (ca % 8388608) + btm_log2 lt1 lt2 (cb % 8388608)) >>> 16 : Nat) : Int) ≤ 0 →
          fast_mul_f32 lt1 lt2 et1 et2 ca cb = 0)) ∧
      (¬(ca % 2147483648 = 0 ∨ cb % 2147483648 = 0) →
        (255 ≤ (((ca >>> 23) % 256 : Nat) : Int) + (((cb >>> 23) % 256 : Nat) : Int) - 127 +
            (((btm_log2 lt1 lt2 (ca % 8388608) + btm_log2 lt1 lt2 (cb % 8388608)) >>> 16 : Nat) : Int) →
          fast_mul_f32 lt1 lt2 et1 et2 ca cb =
            ((((ca >>> 31) % 2) ^^^ ((cb >>> 31) % 2)) <<< 31) + 2139095040)) ∧
      (¬(ca % 2147483648 = 0 ∨ cb % 2147483648 = 0) →
        (0 < (((ca >>> 23) % 256 : Nat) : Int) + (((cb >>> 23) % 256 : Nat) : Int) - 127 +
            (((btm_log2 lt1 lt2 (ca % 8388608) + btm_log2 lt1 lt2 (cb % 8388608)) >>> 16 : Nat) : Int) →
          (((ca >>> 23) % 256 : Nat) : Int) + (((cb >>> 23) % 256 : Nat) : Int) - 127 +
            (((btm_log2 lt1 lt2 (ca % 8388608) + btm_log2 lt1 lt2 (cb % 8388608)) >>> 16 : Nat) : Int) < 255 →
          fast_mul_f32 lt1 lt2 et1 et2 ca cb =
            ((((ca >>> 31) % 2) ^^^ ((cb >>> 31) % 2)) <<< 31) +
              ((((ca >>> 23) % 256 : Nat) : Int) + (((cb >>> 23) % 256 : Nat) : Int) - 127 +
                (((btm_log2 lt1 lt2 (ca % 8388608) + btm_log2 lt1 lt2 (cb % 8388608)) >>> 16 : Nat) : Int)).toNat * 8388608 +
              btm_exp2 et1 et2 ((btm_log2 lt1 lt2 (ca % 8388608) + btm_log2 lt1 lt2 (cb % 8388608)) % 65536))) := by
  intro lt1 lt2 et1 et2 ca cb
  refine ⟨?_, ?_, ?_, ?_⟩
  · intro hz
    simp only [fast_mul_f32]
    rw [if_pos hz]
  · intro hnz hle
    simp only [fast_mul_f32]
    rw [if_neg hnz]
    split
    · rfl
    · next hq => exact absurd hle hq
  · intro hnz hge
    simp only [fast_mul_f32]
    rw [if_neg hnz]
    split
    · next hle => exact absurd hge (by omega)
    · split
      · rfl
      · next hn => exact absurd hge hn
  · intro hnz h1 h2
    simp only [fast_mul_f32]
    rw [if_neg hnz]
    split
    · next hle => exact absurd hle (by omega)
    · split
      · next hge => exact absurd hge (by omega)
      · rfl

/-- Witness for C2: with all-zero tables, 3.0f times 2.0f lands in the
normal-assembly branch and yields the bits of 4.0f. -/
theorem C2_witness :
    fast_mul_f32 (fun _ => 0) (fun _ => 0) (fun _ => 0) (fun _ => 0) 1077936128 1073741824 =
      1082130432 := by
  obtain ⟨h0, h1, h2, h3⟩ := C2_fast_mul_f32_structure
    (fun _ => 0) (fun _ => 0) (fun _ => 0) (fun _ => 0) 1077936128 1073741824
  rw [h3 (by decide) (by decide) (by decide)]
  decide

/-! ### C3: the denominator guard of the standard perspective projection -/

/-- C3 (corrected): the denominator used by `project_perspective` is
`v.z + focal` with an exact-zero replaced by 1 — it is never 0, but it is
not clamped to be at least 1: any negative value passes through to the
divisions unchanged. -/
theorem C3_perspective_denominator :
    ∀ (v : Vec3) (focal : Int),
      perspective_denom v.z focal ≠ 0 ∧
      (wrap32 (v.z + focal) ≠ 0 → perspective_denom v.z focal = wrap32 (v.z + focal)) ∧
      (wrap32 (v.z + focal) = 0 → perspective_denom v.z focal = 1) ∧
      project_perspective v focal =
        vec3_init (q16_div_s (q16_mul_s v.x focal) (perspective_denom v.z focal))
                  (q16_div_s (q16_mul_s v.y focal) (perspective_denom v.z focal)) v.z := by
  intro v focal
  refine ⟨?_, ?_, ?_, rfl⟩
  · simp only [perspective_denom]
    split
    · exact one_ne_zero
    · next h => exact h
  · intro h
    simp only [perspective_denom]
    rw [if_neg h]
  · intro h
    simp only [perspective_denom]
    rw [if_pos h]

/-- Counterexample to C3 as stated: at `z = -196608`, `focal = 65536` the
denominator is `-131072`, which is not at least 1, and the division receives
it, producing a sign-flipped projected x. -/
theorem C3_counterexample :
    perspective_denom (-196608) 65536 = -131072 ∧
    ¬ (1 ≤ perspective_denom (-196608) 65536) ∧
    project_perspective ⟨65536, 0, -196608⟩ 65536 = ⟨-32768, 0, -196608⟩ := by
  decide

/-- Witness for C3 at the counterexample point: the denominator passes
through unchanged because it is nonzero. -/
theorem C3_witness :
    perspective_denom (-196608 : Int) 65536 ≠ 0 ∧
    perspective_denom (-196608 : Int) 65536 = wrap32 ((-196608 : Int) + 65536) := by
  obtain ⟨h1, h2, h3, h4⟩ := C3_perspective_denominator ⟨65536, 0, -196608⟩ 65536
  exact ⟨h1, h2 (by decide)⟩

/-! ### C4: edge cases of the approximate divide -/

/-- C4 (corrected): `div_u32_u16_ap` tests the divisor first, so every
`d = 0` — including `n = 0, d = 0` — saturates to all-ones; `n = 0` returns
0 only when `d` is nonzero; and on nonzero operands the result is
`exp2_q8(log2_q8 n - log2_q8 d)`. -/
theorem C4_div_edge_cases :
    ∀ n d : Nat,
      (d = 0 → div_u32_u16_ap n d = 4294967295) ∧
      (n = 0 → d ≠ 0 → div_u32_u16_ap n d = 0) ∧
      (n ≠ 0 → d ≠ 0 → div_u32_u16_ap n d = exp2_q8 (log2_q8 n - log2_q8 d)) := by
  intro n d
  refine ⟨?_, ?_, ?_⟩
  · intro hd
    simp only [div_u32_u16_ap]
    rw [if_pos hd]
  · intro hn hd
    simp only [div_u32_u16_ap]
    rw [if_neg hd, if_pos hn]
  · intro hn hd
    simp only [div_u32_u16_ap]
    rw [if_neg hd, if_neg hn]

/-- Counterexample to C4 as stated: `div(0,0)` is all-ones, not 0, because
the divisor test comes first in the source. -/
theorem C4_counterexample :
    div_u32_u16_ap 0 0 = 4294967295 ∧ div_u32_u16_ap 0 0 ≠ 0 := by
  decide

/-- Witness for C4 on all three branches. -/
theorem C4_witness :
    div_u32_u16_ap 5 0 = 4294967295 ∧ div_u32_u16_ap 0 7 = 0 ∧
    div_u32_u16_ap 6 2 = exp2_q8 (log2_q8 6 - log2_q8 2) := by
  refine ⟨(C4_div_edge_cases 5 0).1 (by decide), ?_, ?_⟩
  · exact (C4_div_edge_cases 0 7).2.1 (by decide) (by decide)
  · exact (C4_div_edge_cases 6 2).2.2 (by decide) (by decide)

/-! ### C7: the two rendering pipelines -/

/-- C7 (corrected): both pipelines perform the identical scale-rotate-
translate model-view prefix, and their z outputs agree exactly; they differ
only in the projection applied at the end (`project_perspective` versus
`project_perspective_ap`), whose x/y outputs are NOT within a small
tolerance in general (see the counterexample). -/
theorem C7_pipeline_agreement :
    ∀ (vLocal : Vec3) (scale : Int) (ax ay az : Nat) (trans : Vec3) (focal : Int),
      pipeline_mvp vLocal scale ax ay az trans focal =
        project_perspective (pipeline_world vLocal scale ax ay az trans) focal ∧
      pipeline_mvp_fused vLocal scale ax ay az trans focal =
        project_perspective_ap (pipeline_world vLocal scale ax ay az trans) focal ∧
      (pipeline_mvp vLocal scale ax ay az trans focal).z =
        (pipeline_mvp_fused vLocal scale ax ay az trans focal).z := by
  intro vLocal scale ax ay az trans focal
  refine ⟨?_, ?_, ?_⟩
  · simp only [pipeline_mvp, pipeline_world]
  · simp only [pipeline_mvp_fused, pipeline_world]
  · simp only [pipeline_mvp, pipeline_mvp_fused, project_perspective,
      project_perspective_ap, vec3_init]

/-- Counterexample to C7 as stated: on a point behind the camera the
standard pipeline's x is -32765 while the fused pipeline's x saturates to
-8388608, a componentwise gap of 8355843 (about 127.5 in Q16.16) — not a
small tolerance. -/
theorem C7_counterexample :
    pipeline_mvp ⟨65536, 0, 65536⟩ 65536 0 0 0 ⟨0, 0, -262144⟩ 65536 =
      ⟨-32765, 0, -196612⟩ ∧
    pipeline_mvp_fused ⟨65536, 0, 65536⟩ 65536 0 0 0 ⟨0, 0, -262144⟩ 65536 =
      ⟨-8388608, 0, -196612⟩ ∧
    8355843 ≤ ((pipeline_mvp ⟨65536, 0, 65536⟩ 65536 0 0 0 ⟨0, 0, -262144⟩ 65536).x -
      (pipeline_mvp_fused ⟨65536, 0, 65536⟩ 65536 0 0 0 ⟨0, 0, -262144⟩ 65536).x).natAbs := by
  decide

/-! ### C5: the sign/sentinel invariant of the Log32 ring -/

/-- C5 (corrected): for inputs whose signs are in {-1,0,1} and satisfy the
sentinel condition, every ring operation yields a value with sign 0 only if
its magnitude is the sentinel -32768; the converse direction of the spec's
iff is false — the sentinel magnitude is reachable with sign 1 (see the
counterexample). -/
theorem C5_log32_sentinel :
    ∀ (a b : Log32) (v k : Int),
      (a.sign = -1 ∨ a.sign = 0 ∨ a.sign = 1) →
      (b.sign = -1 ∨ b.sign = 0 ∨ b.sign = 1) →
      (a.sign = 0 → a.lval = -32768) →
      (b.sign = 0 → b.lval = -32768) →
      ((to_log32 v).sign = 0 → (to_log32 v).lval = -32768) ∧
      ((log32_mul a b).sign = 0 → (log32_mul a b).lval = -32768) ∧
      ((log32_div a b).sign = 0 → (log32_div a b).lval = -32768) ∧
      ((log32_pow a k).sign = 0 → (log32_pow a k).lval = -32768) ∧
      ((log32_add a b).sign = 0 → (log32_add a b).lval = -32768) := by
  intro a b v k hsa hsb hia hib
  refine ⟨?_, ?_, ?_, ?_, ?_⟩
  · simp only [to_log32]
    split
    · exact fun _ => rfl
    · split
      · exact fun h => absurd (h : (1 : Int) = 0) (by norm_num)
      · exact fun h => absurd (h : (-1 : Int) = 0) (by norm_num)
  · simp only [log32_mul]
    split
    · exact fun _ => rfl
    · next hns => exact fun h => absurd h hns
  · simp only [log32_div]
    split
    · intro h
      have h' : (if 0 ≤ a.sign then (1 : Int) else -1) = 0 := h
      split at h' <;> simp at h'
    · next hnb =>
      split
      · exact fun _ => rfl
      · next hna =>
        intro h
        have h' : wrap8 (a.sign * b.sign) = 0 := h
        rcases hsa with h1 | h1 | h1 <;> rcases hsb with h2 | h2 | h2 <;>
          first
            | exact absurd h1 hna
            | exact absurd h2 hnb
            | (rw [h1, h2] at h'; exact absurd h' (by decide))
  · simp only [log32_pow]
    split
    · exact fun _ => rfl
    · exact fun h => absurd (h : (1 : Int) = 0) (by norm_num)
  · simp only [log32_add]
    split
    · exact hib
    · next hna0 =>
      split
      · exact hia
      · next hnb0 =>
        split
        · split
          · exact fun h => absurd h hna0
          · exact fun h => absurd h hnb0
        · simp only [to_log32]
          split
          · exact fun _ => rfl
          · split
            · exact fun h => absurd (h : (1 : Int) = 0) (by norm_num)
            · exact fun h => absurd (h : (-1 : Int) = 0) (by norm_num)

/-- Counterexample to C5 as stated: squaring `log32_div(to_log32 1,
to_log32 2)` seven times with `log32_mul` reaches the sentinel magnitude
-32768 with sign 1, so sign = 0 is not equivalent to magnitude = sentinel. -/
theorem C5_counterexample :
    ((fun x => log32_mul x x)^[7] (log32_div (to_log32 1) (to_log32 2))).sign = 1 ∧
    ((fun x => log32_mul x x)^[7] (log32_div (to_log32 1) (to_log32 2))).lval = -32768 := by
  decide

/-- Witness for C5 on concrete ring elements. -/
theorem C5_witness :
    ((to_log32 0).sign = 0 → (to_log32 0).lval = -32768) ∧
    ((log32_mul (to_log32 3) (to_log32 (-2))).sign = 0 →
      (log32_mul (to_log32 3) (to_log32 (-2))).lval = -32768) ∧
    ((log32_div (to_log32 3) (to_log32 (-2))).sign = 0 →
      (log32_div (to_log32 3) (to_log32 (-2))).lval = -32768) ∧
    ((log32_pow (to_log32 3) 5).sign = 0 → (log32_pow (to_log32 3) 5).lval = -32768) ∧
    ((log32_add (to_log32 3) (to_log32 (-2))).sign = 0 →
      (log32_add (to_log32 3) (to_log32 (-2))).lval = -32768) :=
  C5_log32_sentinel (to_log32 3) (to_log32 (-2)) 0 5
    (by decide) (by decide) (by decide) (by decide)

/-! ### C8: multiplying by the 4x4 identity -/

theorem id_entry (b : Int) (h1 : -2147483648 ≤ b) (h2 : b < 2147483648) :
    wrap32 (asr (wrap64 (65536 * b)) 16) = b := by
  rw [wrap64_eq_self _ (by omega) (by omega)]
  have ha : asr (65536 * b) 16 = b := by
    unfold asr
    rw [show ((2 : Int) ^ 16) = 65536 by norm_num]
    exact Int.mul_fdiv_cancel_left b (by norm_num)
  rw [ha]
  exact wrap32_eq_self b h1 h2

/-- C8: for every matrix with `int32_t`-representable entries,
`mat4_mul mat4_identity B` is exactly `B`: each dot product collapses to
`(Q16_ONE * entry) >> 16`, which is exact. -/
theorem C8_mat4_identity_mul :
    ∀ B : Mat4, (∀ i j, -2147483648 ≤ B i j ∧ B i j < 2147483648) →
      mat4_mul mat4_identity B = B := by
  intro B hB
  funext i j
  fin_cases i
  · show wrap32 (asr (wrap64 (65536 * B 0 j + 0 * B 1 j + 0 * B 2 j + 0 * B 3 j)) 16) = B 0 j
    rw [show 65536 * B 0 j + 0 * B 1 j + 0 * B 2 j + 0 * B 3 j = 65536 * B 0 j by ring]
    exact id_entry _ (hB 0 j).1 (hB 0 j).2
  · show wrap32 (asr (wrap64 (0 * B 0 j + 65536 * B 1 j + 0 * B 2 j + 0 * B 3 j)) 16) = B 1 j
    rw [show 0 * B 0 j + 65536 * B 1 j + 0 * B 2 j + 0 * B 3 j = 65536 * B 1 j by ring]
    exact id_entry _ (hB 1 j).1 (hB 1 j).2
  · show wrap32 (asr (wrap64 (0 * B 0 j + 0 * B 1 j + 65536 * B 2 j + 0 * B 3 j)) 16) = B 2 j
    rw [show 0 * B 0 j + 0 * B 1 j + 65536 * B 2 j + 0 * B 3 j = 65536 * B 2 j by ring]
    exact id_entry _ (hB 2 j).1 (hB 2 j).2
  · show wrap32 (asr (wrap64 (0 * B 0 j + 0 * B 1 j + 0 * B 2 j + 65536 * B 3 j)) 16) = B 3 j
    rw [show 0 * B 0 j + 0 * B 1 j + 0 * B 2 j + 65536 * B 3 j = 65536 * B 3 j by ring]
    exact id_entry _ (hB 3 j).1 (hB 3 j).2

/-- Witness for C8 on a concrete matrix. -/
theorem C8_witness :
    mat4_mul mat4_identity (fun i j => ((i.val * 4 + j.val : Nat) : Int)) =
      (fun i j => ((i.val * 4 + j.val : Nat) : Int)) :=
  C8_mat4_identity_mul _ (by decide)

/-! ### C9: bounded step counts and 32-bit totality -/

theorem log2_cost_le (v : Nat) : log2_q8_cost v ≤ 13 := by
  simp only [log2_q8_cost]
  repeat' split
  all_goals omega

theorem exp2_cost_le (y : Int) : exp2_q8_cost y ≤ 11 := by
  simp only [exp2_q8_cost]
  repeat' split
  all_goals omega

theorem exp2_q8_lt (y : Int) : exp2_q8 y < 4294967296 := by
  have hfr : (Int.emod y 256).toNat < 256 := by
    have h1 : (0 : Int) ≤ Int.emod y 256 := Int.emod_nonneg y (by norm_num)
    have h2 : Int.emod y 256 < 256 := Int.emod_lt_of_pos y (by norm_num)
    omega
  have hE := (tblE_bounds _ hfr).2
  have hsr : ∀ n s : Nat, n >>> s ≤ n := fun n s => by
    rw [Nat.shiftRight_eq_div_pow]
    exact Nat.div_le_self _ _
  simp only [exp2_q8]
  repeat' split
  all_goals
    first
      | omega
      | exact Nat.mod_lt _ (by norm_num)
      | exact Nat.lt_of_le_of_lt (le_trans (hsr _ _) (le_trans (hsr _ _) hE)) (by norm_num)
      | exact Nat.lt_of_le_of_lt (le_trans (hsr _ _) hE) (by norm_num)

/-- C9: a uniform step-count model tallied from the branch structure of the
source shows every core operation finishes within a fixed number of
primitive steps independent of operand magnitude (no data-dependent loops),
and `log2_q8`/`exp2_q8` are total on 32-bit inputs with in-range results. -/
theorem C9_bounded_steps :
    ∀ v : Nat, v < 4294967296 → ∀ (y : Int) (a b n d : Nat),
      log2_q8_cost v ≤ 13 ∧ exp2_q8_cost y ≤ 11 ∧
      mul_u16_ap_cost a b ≤ 39 ∧ div_u32_u16_ap_cost n d ≤ 41 ∧
      -2147483648 ≤ log2_q8 v ∧ log2_q8 v ≤ 8191 ∧ exp2_q8 y < 4294967296 := by
  intro v hv y a b n d
  have hm : mul_u16_ap_cost a b ≤ 39 := by
    simp only [mul_u16_ap_cost]
    split
    · omega
    · have h1 := log2_cost_le a
      have h2 := log2_cost_le b
      have h3 := exp2_cost_le (log2_q8 a + log2_q8 b)
      omega
  have hd : div_u32_u16_ap_cost n d ≤ 41 := by
    simp only [div_u32_u16_ap_cost]
    split
    · omega
    · split
      · omega
      · have h1 := log2_cost_le n
        have h2 := log2_cost_le d
        have h3 := exp2_cost_le (log2_q8 n - log2_q8 d)
        omega
  have hlr : -2147483648 ≤ log2_q8 v ∧ log2_q8 v ≤ 8191 := by
    rcases Nat.eq_zero_or_pos v with rfl | hp
    · exact ⟨by decide, by decide⟩
    · have := log2_q8_range v hp hv
      omega
  exact ⟨log2_cost_le v, exp2_cost_le y, hm, hd, hlr.1, hlr.2, exp2_q8_lt y⟩

/-- Witness for C9 at concrete operands. -/
theorem C9_witness :
    log2_q8_cost 7 ≤ 13 ∧ exp2_q8_cost 3 ≤ 11 ∧
    mul_u16_ap_cost 2 3 ≤ 39 ∧ div_u32_u16_ap_cost 9 4 ≤ 41 ∧
    -2147483648 ≤ log2_q8 7 ∧ log2_q8 7 ≤ 8191 ∧ exp2_q8 3 < 4294967296 :=
  C9_bounded_steps 7 (by decide) 3 2 3 9 4

/-! ### C10: zero edge cases of the square-root pair -/

/-- C10: `q16_inv_sqrt 0` saturates to all-ones and `q16_sqrt 0` is 0, and
on every input both return a value representable in 32 bits, so the pair is
total over the unsigned 32-bit domain. -/
theorem C10_sqrt_edge :
    ∀ x : Nat,
      q16_inv_sqrt 0 = 4294967295 ∧ q16_sqrt 0 = 0 ∧
      q16_inv_sqrt x < 4294967296 ∧ q16_sqrt x < 4294967296 := by
  intro x
  refine ⟨by decide, by decide, ?_, ?_⟩
  · simp only [q16_inv_sqrt]
    split
    · norm_num
    · exact exp2_q8_lt _
  · simp only [q16_sqrt]
    split
    · norm_num
    · exact exp2_q8_lt _

end UnoFastMul
